import Mathlib

/-!
Shallow embedding of the transactional sale / stock-adjustment core of the
pos-inventory-system backend (Flask + SQLAlchemy), together with proofs of the
spec's testable properties.

The embedding models the relational store as lists of records and each route
handler as a pure function `Store → Request → Except Error (Store × ...)`.
A handler that returns `.error e` corresponds to an HTTP error response: in the
source every error return happens before `db.session.commit()`, so nothing is
persisted (uncommitted session changes are rolled back / discarded); the
embedding reflects this by carrying no store in the `.error` case.

Numeric conventions:
* SQL `Numeric` columns and Python floats are modelled as `ℚ` (exact
  arithmetic; the claims under verification are about the algebraic
  relationships the code computes).
* Python `int(x)` (truncation toward zero) is modelled by `pyInt`.
* Autoincrement primary keys are modelled as successor of the row count;
  uuid/timestamp-based tokens (sale numbers, transfer references) are modelled
  as deterministic fresh strings — no claim depends on their actual text.
-/

deriving instance DecidableEq for Except

/-- updateFirst l p f maps `f` over the first element of `l` satisfying `p`,
leaving everything else unchanged.  It models an SQLAlchemy
`query.filter_by(...).first()` fetch followed by in-place mutation of the
returned row. -/
def updateFirst {α : Type} (p : α → Bool) (f : α → α) : List α → List α
  | [] => []
  | x :: xs => if p x then f x :: xs else x :: updateFirst p f xs

/-- pyInt q is Python's `int(q)`: truncation toward zero. -/
def pyInt (q : ℚ) : ℤ := if 0 ≤ q then ⌊q⌋ else -⌊-q⌋

/-! ## Data model (src/backend/src/models) -/

/-- Product row (models/user.py): only the columns the sale/stock core reads. -/
structure Product where
  id : Nat
  selling_price : ℚ
  tax_rate : ℚ
  is_active : Bool
deriving Repr, DecidableEq

/-- Branch row (models/user.py). -/
structure Branch where
  id : Nat
  is_active : Bool
deriving Repr, DecidableEq

/-- Customer row (models/user.py): loyalty balance and cumulative purchases. -/
structure Customer where
  id : Nat
  loyalty_points : ℤ
  total_purchases : ℚ
deriving Repr, DecidableEq

/-- Inventory row (models/inventory.py): one row per (product, branch). -/
structure Inventory where
  product_id : Nat
  branch_id : Nat
  current_stock : ℤ
  reserved_stock : ℤ
deriving Repr, DecidableEq

/-- available_stock property of models/inventory.py. -/
def Inventory.available_stock (inv : Inventory) : ℤ :=
  inv.current_stock - inv.reserved_stock

/-- StockMovement row (models/inventory.py): append-only audit log entry. -/
structure StockMovement where
  product_id : Nat
  branch_id : Nat
  movement_type : String
  quantity : ℤ
  unit_cost : Option ℚ
  reference : String
  notes : String
  created_by : Nat
deriving Repr, DecidableEq

/-- Sale row (models/sales.py). -/
structure Sale where
  id : Nat
  sale_number : String
  customer_id : Option Nat
  branch_id : Nat
  cashier_id : Nat
  sub_total : ℚ
  tax_amount : ℚ
  discount_amount : ℚ
  total_amount : ℚ
  payment_method : String
  payment_status : String
  notes : String
deriving Repr, DecidableEq

/-- SaleItem row (models/sales.py). -/
structure SaleItem where
  sale_id : Nat
  product_id : Nat
  quantity : ℤ
  unit_price : ℚ
  discount_amount : ℚ
  tax_amount : ℚ
  line_total : ℚ
deriving Repr, DecidableEq

/-- LoyaltyTransaction row (models/sales.py). -/
structure LoyaltyTransaction where
  customer_id : Nat
  sale_id : Option Nat
  transaction_type : String
  points : ℤ
deriving Repr, DecidableEq

/-- PurchaseOrder row (models/inventory.py).  The expected delivery date is
opaque to every claim; it is modelled as an abstract parsed value. -/
structure PurchaseOrder where
  id : Nat
  po_number : String
  supplier_id : Nat
  branch_id : Nat
  status : String
  sub_total : ℚ
  tax_amount : ℚ
  total_amount : ℚ
  notes : String
  expected_delivery_date : Option Nat
deriving Repr, DecidableEq

/-- PurchaseOrderItem row (models/inventory.py). -/
structure PurchaseOrderItem where
  id : Nat
  purchase_order_id : Nat
  product_id : Nat
  ordered_quantity : ℤ
  received_quantity : ℤ
  unit_cost : ℚ
deriving Repr, DecidableEq

/-- Store: the relational database state touched by the sale/stock core.
`loyalty_rate_setting` is the `LOYALTY_POINTS_RATE` SystemSetting row with its
`setting_value` already parsed by Python `float(...)`. -/
structure Store where
  products : List Product
  branches : List Branch
  customers : List Customer
  inventories : List Inventory
  movements : List StockMovement
  sales : List Sale
  sale_items : List SaleItem
  loyalty_transactions : List LoyaltyTransaction
  purchase_orders : List PurchaseOrder
  purchase_order_items : List PurchaseOrderItem
  loyalty_rate_setting : Option ℚ
deriving Repr, DecidableEq

/-- invKey product_id branch_id is the filter_by predicate on inventory rows. -/
def invKey (product_id branch_id : Nat) (inv : Inventory) : Bool :=
  inv.product_id == product_id && inv.branch_id == branch_id

/-- stockOf l pid bid reads current_stock of the (pid, bid) row of an
inventory table, 0 when the row is absent (a fresh row starts at 0). -/
def stockOf (l : List Inventory) (product_id branch_id : Nat) : ℤ :=
  ((l.find? (invKey product_id branch_id)).map (·.current_stock)).getD 0

/-- stockAt s pid bid reads current_stock of the (pid, bid) inventory row of
the store. -/
def stockAt (s : Store) (product_id branch_id : Nat) : ℤ :=
  stockOf s.inventories product_id branch_id

/-- customerAt s cid is the Customer.query.get lookup. -/
def customerAt (s : Store) (customer_id : Nat) : Option Customer :=
  s.customers.find? (fun c => c.id == customer_id)

/-! ## create_sale (routes/sales.py, POST /sales) -/

/-- SaleError enumerates the distinct error returns of create_sale, following
the spec's error taxonomy.  `insufficientStock` corresponds to the
`'Insufficient stock for product ...'` 400 response. -/
inductive SaleError where
  | missingField (field : String)
  | emptyCart
  | branchNotFound
  | customerNotFound
  | invalidItem
  | productNotFound (product_id : Nat)
  | insufficientStock
deriving Repr, DecidableEq

/-- SaleItemRequest is one entry of the JSON `items` list; `Option` marks
fields read with `.get(...)` (absent ⇒ `None` / default). -/
structure SaleItemRequest where
  product_id : Option Nat
  quantity : Option ℤ
  unit_price : Option ℚ
  discount_amount : Option ℚ
deriving Repr, DecidableEq

/-- SaleRequest is the JSON body of POST /sales; `Option` marks presence of a
key in the request body (the required-field check tests `field not in data`). -/
structure SaleRequest where
  branch_id : Option Nat
  customer_id : Option Nat
  items : Option (List SaleItemRequest)
  payment_method : Option String
  total_amount : Option ℚ
  discount_amount : Option ℚ
  notes : Option String
deriving Repr, DecidableEq

/-- ValidatedItem is one element of the `validated_items` list built by the
validation loop of create_sale. -/
structure ValidatedItem where
  product_id : Nat
  quantity : ℤ
  unit_price : ℚ
  discount_amount : ℚ
  tax_amount : ℚ
  line_total : ℚ
deriving Repr, DecidableEq

/-- findCustomer models the optional customer lookup of create_sale:
`if customer_id: customer = Customer.query.get(customer_id); 404 if absent`. -/
def findCustomer (s : Store) : Option Nat → Except SaleError (Option Customer)
  | none => .ok none
  | some customer_id =>
    match customerAt s customer_id with
    | none => .error .customerNotFound
    | some c => .ok (some c)

/-- validateItems is the `for item_data in items_data` validation loop of
create_sale (routes/sales.py lines 149-196): per line it checks product id and
quantity, resolves the product (must exist and be active), defaults the unit
price to the product's selling price, checks `available_stock` at the branch,
and computes `line_subtotal`, `tax_amount`, `line_total`, accumulating
`sub_total` and `total_tax`. -/
def validateItems (s : Store) (branch_id : Nat) :
    List SaleItemRequest → Except SaleError (List ValidatedItem × ℚ × ℚ)
  | [] => .ok ([], 0, 0)
  | item_data :: rest =>
    let product_id := item_data.product_id.getD 0
    let quantity := item_data.quantity.getD 0
    let item_discount := item_data.discount_amount.getD 0
    if product_id == 0 || quantity ≤ 0 then .error .invalidItem
    else
      match s.products.find? (fun p => p.id == product_id) with
      | none => .error (.productNotFound product_id)
      | some product =>
        if !product.is_active then .error (.productNotFound product_id)
        else
          let unit_price := item_data.unit_price.getD product.selling_price
          match s.inventories.find? (invKey product_id branch_id) with
          | none => .error .insufficientStock
          | some inventory =>
            if inventory.available_stock < quantity then .error .insufficientStock
            else
              let line_subtotal := unit_price * (quantity : ℚ) - item_discount
              let tax_amount := line_subtotal * (product.tax_rate / 100)
              let line_total := line_subtotal + tax_amount
              match validateItems s branch_id rest with
              | .error e => .error e
              | .ok (validated, sub_total, total_tax) =>
                .ok (⟨product_id, quantity, unit_price, item_discount,
                      tax_amount, line_total⟩ :: validated,
                     line_subtotal + sub_total, tax_amount + total_tax)

/-- update_inventory_after_sale (routes/sales.py lines 23-47): for each sold
line, decrement the branch inventory row and append an `OUT` movement with the
negated quantity.  A line whose inventory row is missing is silently skipped
(`if inventory:`); the reference is the literal `"SALE-"` because the
validated items dict has no `sale_id` key. -/
def update_inventory_after_sale (sale_items : List ValidatedItem)
    (branch_id : Nat) (cashier_id : Nat) (s : Store) : Store :=
  match sale_items with
  | [] => s
  | item :: rest =>
    let s1 :=
      match s.inventories.find? (invKey item.product_id branch_id) with
      | none => s
      | some _ =>
        { s with
          inventories := updateFirst (invKey item.product_id branch_id)
            (fun inv => { inv with current_stock := inv.current_stock - item.quantity })
            s.inventories
          movements := s.movements ++
            [⟨item.product_id, branch_id, "OUT", -item.quantity, none,
              "SALE-", "Sale transaction", cashier_id⟩] }
    update_inventory_after_sale rest branch_id cashier_id s1

/-- apply_loyalty models the `if customer:` block of create_sale (routes/
sales.py lines 229-247): read LOYALTY_POINTS_RATE (default 1.0), compute
`points_earned = int(total_amount * loyalty_rate)`, and when positive add the
points and total to the customer and append an `EARNED` transaction. -/
def apply_loyalty (customer : Option Customer) (total_amount : ℚ)
    (sale_id : Nat) (s : Store) : Store :=
  match customer with
  | none => s
  | some c =>
    let loyalty_rate := s.loyalty_rate_setting.getD 1
    let points_earned := pyInt (total_amount * loyalty_rate)
    if 0 < points_earned then
      { s with
        customers := updateFirst (fun x => x.id == c.id)
          (fun x => { x with
            loyalty_points := x.loyalty_points + points_earned,
            total_purchases := x.total_purchases + total_amount }) s.customers
        loyalty_transactions := s.loyalty_transactions ++
          [⟨c.id, some sale_id, "EARNED", points_earned⟩] }
    else s

/-- finishSale is the persistence phase of create_sale after validation has
fully succeeded: insert the sale header, its items, run
update_inventory_after_sale and the loyalty block, and return the created rows
(the route returns the sale dict together with its items). -/
def finishSale (s : Store) (r : SaleRequest) (branch_id : Nat)
    (payment_method : String) (customer : Option Customer)
    (validated_items : List ValidatedItem) (sub_total total_tax : ℚ)
    (cashier_id : Nat) : Store × Sale × List SaleItem :=
  let discount_amount := r.discount_amount.getD 0
  let total_amount := sub_total + total_tax - discount_amount
  let sale_id := s.sales.length + 1
  let sale : Sale :=
    ⟨sale_id, "SALE-" ++ toString sale_id, r.customer_id, branch_id, cashier_id,
     sub_total, total_tax, discount_amount, total_amount, payment_method,
     "Completed", r.notes.getD ""⟩
  let new_items := validated_items.map (fun v =>
    ⟨sale_id, v.product_id, v.quantity, v.unit_price, v.discount_amount,
     v.tax_amount, v.line_total⟩)
  let s1 := { s with sales := s.sales ++ [sale],
                     sale_items := s.sale_items ++ new_items }
  let s2 := update_inventory_after_sale validated_items branch_id cashier_id s1
  let s3 := apply_loyalty customer total_amount sale_id s2
  (s3, sale, new_items)

/-- create_sale (routes/sales.py lines 112-262): validate required fields,
branch, optional customer and every line (stock included), then persist the
sale, its items, the inventory decrements with `OUT` movements, and the
loyalty update, atomically.  Every `.error` return happens before any write,
matching the source where all error responses precede the session mutations
and `db.session.commit()`. -/
def create_sale (s : Store) (r : SaleRequest) (cashier_id : Nat) :
    Except SaleError (Store × Sale × List SaleItem) :=
  match r.branch_id with
  | none => .error (.missingField "branch_id")
  | some branch_id =>
    match r.items with
    | none => .error (.missingField "items")
    | some items_data =>
      match r.payment_method with
      | none => .error (.missingField "payment_method")
      | some payment_method =>
        if r.total_amount.isNone then .error (.missingField "total_amount")
        else if items_data.isEmpty then .error .emptyCart
        else
          match s.branches.find? (fun b => b.id == branch_id) with
          | none => .error .branchNotFound
          | some _ =>
            match findCustomer s r.customer_id with
            | .error e => .error e
            | .ok customer =>
              match validateItems s branch_id items_data with
              | .error e => .error e
              | .ok (validated_items, sub_total, total_tax) =>
                .ok (finishSale s r branch_id payment_method customer
                      validated_items sub_total total_tax cashier_id)

/-! ## refund_sale (routes/sales.py, POST /sales/<id>/refund) -/

/-- RefundError enumerates the error returns of refund_sale. -/
inductive RefundError where
  | saleNotFound
  | alreadyRefunded
deriving Repr, DecidableEq

/-- saleItemsOf s sale_id is the `sale.items` relationship: the sale's line
items in insertion order. -/
def saleItemsOf (s : Store) (sale_id : Nat) : List SaleItem :=
  s.sale_items.filter (fun it => it.sale_id == sale_id)

/-- refundMovementOf sale uid item is the `IN` StockMovement appended for one
refunded line (routes/sales.py lines 297-306). -/
def refundMovementOf (sale : Sale) (uid : Nat) (item : SaleItem) : StockMovement :=
  ⟨item.product_id, sale.branch_id, "IN", item.quantity, none,
   "REFUND-" ++ sale.sale_number, "Refund for sale " ++ sale.sale_number, uid⟩

/-- restore_inventory is the `for item in sale.items` loop of refund_sale:
each line's inventory row (if present — `if inventory:`) gets its stock
incremented by the sold quantity and an `IN` movement is appended. -/
def restore_inventory (sale : Sale) (uid : Nat) :
    List SaleItem → Store → Store
  | [], s => s
  | item :: rest, s =>
    let s1 :=
      match s.inventories.find? (invKey item.product_id sale.branch_id) with
      | none => s
      | some _ =>
        { s with
          inventories := updateFirst (invKey item.product_id sale.branch_id)
            (fun inv => { inv with current_stock := inv.current_stock + item.quantity })
            s.inventories
          movements := s.movements ++ [refundMovementOf sale uid item] }
    restore_inventory sale uid rest s1

/-- refund_loyalty is the `if sale.customer_id:` block of refund_sale
(routes/sales.py lines 308-332): when the customer row exists and an `EARNED`
loyalty transaction for this sale is found, deduct exactly its points,
subtract the sale total from total_purchases, and append an `ADJUSTED`
transaction with the negated points. -/
def refund_loyalty (sale : Sale) (s : Store) : Store :=
  match sale.customer_id with
  | none => s
  | some customer_id =>
    match customerAt s customer_id with
    | none => s
    | some _ =>
      match s.loyalty_transactions.find? (fun t =>
          t.customer_id == customer_id && t.sale_id == some sale.id &&
          t.transaction_type == "EARNED") with
      | none => s
      | some lt =>
        { s with
          customers := updateFirst (fun x => x.id == customer_id)
            (fun x => { x with
              loyalty_points := x.loyalty_points - lt.points,
              total_purchases := x.total_purchases - sale.total_amount }) s.customers
          loyalty_transactions := s.loyalty_transactions ++
            [⟨customer_id, some sale.id, "ADJUSTED", -lt.points⟩] }

/-- refund_sale (routes/sales.py lines 264-343): reject an unknown sale or an
already refunded one; otherwise mark the sale `Refunded`, restore inventory
for every line with `IN` movements, and reverse the earned loyalty points. -/
def refund_sale (s : Store) (sale_id : Nat) (reason : String) (uid : Nat) :
    Except RefundError (Store × Sale) :=
  match s.sales.find? (fun x => x.id == sale_id) with
  | none => .error .saleNotFound
  | some sale =>
    if sale.payment_status == "Refunded" then .error .alreadyRefunded
    else
      let sale1 := { sale with
        payment_status := "Refunded",
        notes := sale.notes ++ " | REFUNDED: " ++ reason }
      let s0 := { s with
        sales := updateFirst (fun x => x.id == sale_id) (fun _ => sale1) s.sales }
      let s1 := restore_inventory sale1 uid (saleItemsOf s0 sale_id) s0
      let s2 := refund_loyalty sale1 s1
      .ok (s2, sale1)

/-! ## adjust_stock and transfer_stock (routes/inventory.py) -/

/-- AdjustError enumerates the error returns of adjust_stock. -/
inductive AdjustError where
  | missingField (field : String)
  | productNotFound
  | branchNotFound
  | insufficientStock
  | invalidMovementType
deriving Repr, DecidableEq

/-- AdjustRequest is the JSON body of POST /inventory/adjust. -/
structure AdjustRequest where
  product_id : Option Nat
  branch_id : Option Nat
  quantity : Option ℤ
  movement_type : Option String
  unit_cost : Option ℚ
  reference : Option String
  notes : Option String
deriving Repr, DecidableEq

/-- adjust_stock (routes/inventory.py lines 69-154): validate fields, product
and branch; get or create the (product, branch) inventory row; compute the new
stock level (`IN` adds, `OUT` subtracts failing on insufficient current stock,
`ADJUSTMENT` sets the stock to the given value directly); write it back and
append one StockMovement whose quantity is the request quantity, negated only
for `OUT`.  Returns the updated inventory row and the movement, as the route
responds with both. -/
def adjust_stock (s : Store) (r : AdjustRequest) (uid : Nat) :
    Except AdjustError (Store × Inventory × StockMovement) :=
  match r.product_id with
  | none => .error (.missingField "product_id")
  | some product_id =>
    match r.branch_id with
    | none => .error (.missingField "branch_id")
    | some branch_id =>
      match r.quantity with
      | none => .error (.missingField "quantity")
      | some quantity =>
        match r.movement_type with
        | none => .error (.missingField "movement_type")
        | some movement_type =>
          match s.products.find? (fun p => p.id == product_id) with
          | none => .error .productNotFound
          | some _ =>
            match s.branches.find? (fun b => b.id == branch_id) with
            | none => .error .branchNotFound
            | some _ =>
              let fetched := s.inventories.find? (invKey product_id branch_id)
              let inventory := fetched.getD ⟨product_id, branch_id, 0, 0⟩
              let s0 :=
                match fetched with
                | some _ => s
                | none => { s with inventories :=
                    s.inventories ++ [(⟨product_id, branch_id, 0, 0⟩ : Inventory)] }
              let new_stock? : Except AdjustError ℤ :=
                if movement_type == "IN" then
                  .ok (inventory.current_stock + quantity)
                else if movement_type == "OUT" then
                  if inventory.current_stock < quantity then
                    .error .insufficientStock
                  else .ok (inventory.current_stock - quantity)
                else if movement_type == "ADJUSTMENT" then .ok quantity
                else .error .invalidMovementType
              match new_stock? with
              | .error e => .error e
              | .ok new_stock =>
                let updated := { inventory with current_stock := new_stock }
                let movement : StockMovement :=
                  ⟨product_id, branch_id, movement_type,
                   if movement_type != "OUT" then quantity else -quantity,
                   r.unit_cost, r.reference.getD "", r.notes.getD "", uid⟩
                .ok ({ s0 with
                        inventories := updateFirst (invKey product_id branch_id)
                          (fun inv => { inv with current_stock := new_stock })
                          s0.inventories
                        movements := s0.movements ++ [movement] },
                     updated, movement)

/-- TransferError enumerates the error returns of transfer_stock;
`invalidTransfer` is the `'Source and destination branches cannot be the
same'` 400 response. -/
inductive TransferError where
  | missingField (field : String)
  | invalidTransfer
  | productNotFound
  | branchNotFound
  | insufficientStock
deriving Repr, DecidableEq

/-- TransferRequest is the JSON body of POST /inventory/transfer. -/
structure TransferRequest where
  product_id : Option Nat
  from_branch_id : Option Nat
  to_branch_id : Option Nat
  quantity : Option ℤ
  notes : Option String
deriving Repr, DecidableEq

/-- transfer_reference s models the timestamp-based
`f"TRANSFER-{datetime.utcnow()...}"` token as a deterministic fresh string; no
claim depends on its text, only on both movements sharing it. -/
def transfer_reference (s : Store) : String :=
  "TRANSFER-" ++ toString s.movements.length

/-- transfer_apply is the write phase of transfer_stock (routes/inventory.py
lines 199-245), entered after all validation passed: get or create the
destination row, decrement source, increment destination, and append the
matched pair of `TRANSFER` movements sharing one reference token. -/
def transfer_tables (l : List Inventory)
    (product_id from_branch_id to_branch_id : Nat) (quantity : ℤ) :
    List Inventory :=
  let l0 :=
    match l.find? (invKey product_id to_branch_id) with
    | some _ => l
    | none => l ++ [(⟨product_id, to_branch_id, 0, 0⟩ : Inventory)]
  let l1 := updateFirst (invKey product_id from_branch_id)
    (fun inv => { inv with current_stock := inv.current_stock - quantity }) l0
  updateFirst (invKey product_id to_branch_id)
    (fun inv => { inv with current_stock := inv.current_stock + quantity }) l1

def transfer_apply (s : Store) (product_id from_branch_id to_branch_id : Nat)
    (quantity : ℤ) (note : String) (uid : Nat) : Store :=
  let ref := transfer_reference s
  let out_movement : StockMovement :=
    ⟨product_id, from_branch_id, "TRANSFER", -quantity, none,
     ref, "Transfer out. " ++ note, uid⟩
  let in_movement : StockMovement :=
    ⟨product_id, to_branch_id, "TRANSFER", quantity, none,
     ref, "Transfer in. " ++ note, uid⟩
  { s with
    inventories := transfer_tables s.inventories product_id from_branch_id
      to_branch_id quantity
    movements := s.movements ++ [out_movement, in_movement] }

/-- transfer_stock (routes/inventory.py lines 156-256): reject equal source
and destination; validate product and both branches; fail when the source row
is absent or its available_stock is below the quantity; then run
transfer_apply. -/
def transfer_stock (s : Store) (r : TransferRequest) (uid : Nat) :
    Except TransferError Store :=
  match r.product_id with
  | none => .error (.missingField "product_id")
  | some product_id =>
    match r.from_branch_id with
    | none => .error (.missingField "from_branch_id")
    | some from_branch_id =>
      match r.to_branch_id with
      | none => .error (.missingField "to_branch_id")
      | some to_branch_id =>
        match r.quantity with
        | none => .error (.missingField "quantity")
        | some quantity =>
          if from_branch_id == to_branch_id then .error .invalidTransfer
          else
            match s.products.find? (fun p => p.id == product_id) with
            | none => .error .productNotFound
            | some _ =>
              if (s.branches.find? (fun b => b.id == from_branch_id)).isNone
                  || (s.branches.find? (fun b => b.id == to_branch_id)).isNone then
                .error .branchNotFound
              else
                match s.inventories.find? (invKey product_id from_branch_id) with
                | none => .error .insufficientStock
                | some from_inventory =>
                  if from_inventory.available_stock < quantity then
                    .error .insufficientStock
                  else
                    .ok (transfer_apply s product_id from_branch_id
                      to_branch_id quantity (r.notes.getD "") uid)

/-! ## Purchase order lifecycle (routes/purchase.py) -/

/-- poAt s po_id is the PurchaseOrder.query.get lookup. -/
def poAt (s : Store) (po_id : Nat) : Option PurchaseOrder :=
  s.purchase_orders.find? (fun p => p.id == po_id)

/-- poItemAt s item_id is the PurchaseOrderItem.query.get lookup. -/
def poItemAt (s : Store) (item_id : Nat) : Option PurchaseOrderItem :=
  s.purchase_order_items.find? (fun it => it.id == item_id)

/-- statusAt s po_id reads the status of a purchase order. -/
def statusAt (s : Store) (po_id : Nat) : Option String :=
  (poAt s po_id).map (·.status)

/-- ReceiveError enumerates the error returns of receive_purchase_order;
`invalidStateTransition` is the `'must be approved before receiving'` 400. -/
inductive ReceiveError where
  | poNotFound
  | invalidStateTransition
  | noItems
  | invalidItemId
deriving Repr, DecidableEq

/-- ReceiveItemRequest is one entry of the `items` list of
POST /purchases/<id>/receive. -/
structure ReceiveItemRequest where
  item_id : Option Nat
  received_quantity : Option ℤ
deriving Repr, DecidableEq

/-- receiveMovementOf s po uid r is the `IN` StockMovement appended for a
processed receive entry (routes/purchase.py lines 292-302): it references the
PO number and carries the item's unit cost.  The junk value in the `none`
branch is never reached under the hypotheses of the theorems that use it. -/
def receiveMovementOf (s : Store) (po : PurchaseOrder) (uid : Nat)
    (r : ReceiveItemRequest) : StockMovement :=
  match poItemAt s (r.item_id.getD 0) with
  | none => ⟨0, 0, "IN", 0, none, po.po_number, "", uid⟩
  | some po_item =>
    ⟨po_item.product_id, po.branch_id, "IN", r.received_quantity.getD 0,
     some po_item.unit_cost, po.po_number,
     "Received from PO " ++ po.po_number, uid⟩

/-- process_received_items is the `for received_item in received_items` loop
of receive_purchase_order (routes/purchase.py lines 259-302): entries with
non-positive quantity are skipped (`continue`); an unknown item id or one
belonging to another order aborts the whole request; otherwise the item's
received_quantity is incremented, the destination branch inventory is
incremented (created at 0 if absent), and an `IN` movement is appended. -/
def process_received_items (po : PurchaseOrder) (uid : Nat) :
    List ReceiveItemRequest → Store → Except ReceiveError Store
  | [], s => .ok s
  | r :: rest, s =>
    let received_quantity := r.received_quantity.getD 0
    if received_quantity ≤ 0 then process_received_items po uid rest s
    else
      match poItemAt s (r.item_id.getD 0) with
      | none => .error .invalidItemId
      | some po_item =>
        if po_item.purchase_order_id != po.id then .error .invalidItemId
        else
          let s1 := { s with
            purchase_order_items := updateFirst
              (fun it => it.id == r.item_id.getD 0)
              (fun it => { it with
                received_quantity := it.received_quantity + received_quantity })
              s.purchase_order_items }
          let s2 :=
            match s1.inventories.find? (invKey po_item.product_id po.branch_id) with
            | some _ => s1
            | none => { s1 with inventories := s1.inventories ++
                [(⟨po_item.product_id, po.branch_id, 0, 0⟩ : Inventory)] }
          let s3 := { s2 with
            inventories := updateFirst (invKey po_item.product_id po.branch_id)
              (fun inv => { inv with
                current_stock := inv.current_stock + received_quantity })
              s2.inventories
            movements := s2.movements ++ [receiveMovementOf s po uid r] }
          process_received_items po uid rest s3

/-- allItemsReceived s po_id is the `all(item.received_quantity >=
item.ordered_quantity for item in purchase_order.items)` check. -/
def allItemsReceived (s : Store) (po_id : Nat) : Bool :=
  (s.purchase_order_items.filter (fun it => it.purchase_order_id == po_id)).all
    (fun it => it.ordered_quantity ≤ it.received_quantity)

/-- receive_purchase_order (routes/purchase.py lines 238-323): only an
`Approved` order can be received; process each listed item; afterwards set the
status to `Received` exactly when every item of the order is fully received,
otherwise leave it unchanged. -/
def receive_purchase_order (s : Store) (po_id : Nat)
    (received_items : List ReceiveItemRequest) (uid : Nat) :
    Except ReceiveError Store :=
  match poAt s po_id with
  | none => .error .poNotFound
  | some po =>
    if po.status != "Approved" then .error .invalidStateTransition
    else if received_items.isEmpty then .error .noItems
    else
      match process_received_items po uid received_items s with
      | .error e => .error e
      | .ok s1 =>
        if allItemsReceived s1 po_id then
          let pos := updateFirst (fun p => p.id == po_id)
            (fun p => { p with status := "Received" }) s1.purchase_orders
          .ok { s1 with purchase_orders := pos }
        else .ok s1

/-- ApproveError enumerates the error returns of approve_purchase_order;
`invalidStateTransition` is the `'Only pending purchase orders can be
approved'` 400. -/
inductive ApproveError where
  | poNotFound
  | invalidStateTransition
deriving Repr, DecidableEq

/-- approve_purchase_order (routes/purchase.py lines 325-350): only a
`Pending` order can be approved. -/
def approve_purchase_order (s : Store) (po_id : Nat) :
    Except ApproveError Store :=
  match poAt s po_id with
  | none => .error .poNotFound
  | some po =>
    if po.status != "Pending" then .error .invalidStateTransition
    else
      let pos := updateFirst (fun p => p.id == po_id)
        (fun p => { p with status := "Approved" }) s.purchase_orders
      .ok { s with purchase_orders := pos }

/-- CancelError enumerates the error returns of cancel_purchase_order;
`invalidStateTransition` is the `'Cannot cancel received or already cancelled
purchase order'` 400. -/
inductive CancelError where
  | poNotFound
  | invalidStateTransition
deriving Repr, DecidableEq

/-- cancel_purchase_order (routes/purchase.py lines 352-381): a `Received` or
already `Cancelled` order cannot be cancelled; otherwise mark it `Cancelled`
and append the reason to the notes. -/
def cancel_purchase_order (s : Store) (po_id : Nat) (reason : String) :
    Except CancelError Store :=
  match poAt s po_id with
  | none => .error .poNotFound
  | some po =>
    if po.status == "Received" || po.status == "Cancelled" then
      .error .invalidStateTransition
    else
      let pos := updateFirst (fun p => p.id == po_id)
        (fun p => { p with
          status := "Cancelled",
          notes := p.notes ++ " | CANCELLED: " ++ reason }) s.purchase_orders
      .ok { s with purchase_orders := pos }

/-- UpdatePOError enumerates the error returns of update_purchase_order. -/
inductive UpdatePOError where
  | poNotFound
  | terminalState
  | invalidDate
deriving Repr, DecidableEq

/-- UpdatePORequest is the JSON body of PUT /purchases/<id>.  The
`expected_delivery_date` field models `datetime.strptime` abstractly:
`some none` is a present-but-unparsable date string (400), `some (some d)` a
present, successfully parsed one. -/
structure UpdatePORequest where
  expected_delivery_date : Option (Option Nat)
  status : Option String
  notes : Option String
deriving Repr, DecidableEq

/-- update_purchase_order (routes/purchase.py lines 196-236): a `Received` or
`Cancelled` order cannot be updated; otherwise every supplied field among
`expected_delivery_date`, `status`, `notes` is written onto the order
directly — the status string in particular is NOT validated against the
Pending → Approved → Received/Cancelled state machine. -/
def updatedPO (po : PurchaseOrder) (r : UpdatePORequest) : PurchaseOrder :=
  { po with
    expected_delivery_date :=
      match r.expected_delivery_date with
      | some (some d) => some d
      | _ => po.expected_delivery_date,
    status := r.status.getD po.status,
    notes := r.notes.getD po.notes }

def setPurchaseOrders (s : Store) (l : List PurchaseOrder) : Store :=
  { s with purchase_orders := l }

def update_purchase_order (s : Store) (po_id : Nat) (r : UpdatePORequest) :
    Except UpdatePOError (Store × PurchaseOrder) :=
  match poAt s po_id with
  | none => .error .poNotFound
  | some po =>
    if po.status == "Received" || po.status == "Cancelled" then
      .error .terminalState
    else if r.expected_delivery_date == some none then .error .invalidDate
    else
      let pos := updateFirst (fun p => p.id == po_id) (fun _ => updatedPO po r)
        s.purchase_orders
      .ok ({ s with purchase_orders := pos }, updatedPO po r)

/-! ## Concrete stores used by the witness theorems -/

/-- wBase is a small concrete store: product 1 (price 10, tax 8.5%, 50 in
stock at branch 1), product 2 (price 5, no tax, 2 in stock at branch 1),
inactive product 3, branches 1 and 2, customer 7. -/
def wBase : Store :=
  { products := [⟨1, 10, 17/2, true⟩, ⟨2, 5, 0, true⟩, ⟨3, 4, 0, false⟩]
    branches := [⟨1, true⟩, ⟨2, true⟩]
    customers := [⟨7, 5, 0⟩]
    inventories := [⟨1, 1, 50, 0⟩, ⟨2, 1, 2, 0⟩, ⟨1, 2, 20, 0⟩]
    movements := []
    sales := []
    sale_items := []
    loyalty_transactions := []
    purchase_orders := []
    purchase_order_items := []
    loyalty_rate_setting := none }

/-- wSaleReq sells 2 units of product 1 at branch 1 for customer 7, at the
default selling price, with no discounts. -/
def wSaleReq : SaleRequest :=
  { branch_id := some 1
    customer_id := some 7
    items := some [⟨some 1, some 2, none, none⟩]
    payment_method := some "Cash"
    total_amount := some 0
    discount_amount := none
    notes := none }

/-- wShortReq asks for 5 units of product 2 at branch 1, of which only 2 are
in stock. -/
def wShortReq : SaleRequest :=
  { branch_id := some 1
    customer_id := none
    items := some [⟨some 2, some 5, none, none⟩]
    payment_method := some "Cash"
    total_amount := some 0
    discount_amount := none
    notes := none }

/-- wMixedReq contains a line for nonexistent product 99 followed by the
under-stocked line for product 2; the loop fails on the first line. -/
def wMixedReq : SaleRequest :=
  { branch_id := some 1
    customer_id := none
    items := some [⟨some 99, some 1, none, none⟩, ⟨some 2, some 5, none, none⟩]
    payment_method := some "Cash"
    total_amount := some 0
    discount_amount := none
    notes := none }

/-- wRefund is a store holding completed sale 1 (2 units of product 1 at
branch 1, customer 7, 5 earned points) and already-refunded sale 2. -/
def wRefund : Store :=
  { products := [⟨1, 10, 17/2, true⟩]
    branches := [⟨1, true⟩]
    customers := [⟨7, 26, 217/10⟩]
    inventories := [⟨1, 1, 48, 0⟩]
    movements := []
    sales := [⟨1, "SALE-1", some 7, 1, 1, 20, 17/10, 0, 217/10, "Cash",
               "Completed", ""⟩,
              ⟨2, "SALE-2", none, 1, 1, 10, 0, 0, 10, "Cash", "Refunded", ""⟩]
    sale_items := [⟨1, 1, 2, 10, 0, 17/10, 217/10⟩]
    loyalty_transactions := [⟨7, some 1, "EARNED", 21⟩]
    purchase_orders := []
    purchase_order_items := []
    loyalty_rate_setting := none }

/-- wPO is a store for the purchase-order claims: order 1 is Approved with
two items (item 1: product 1, ordered 10, received 0; item 2: product 2,
ordered 4, received 0), order 2 is Pending, order 3 is Received. -/
def wPO : Store :=
  { products := [⟨1, 10, 17/2, true⟩, ⟨2, 5, 0, true⟩]
    branches := [⟨1, true⟩]
    customers := []
    inventories := [⟨1, 1, 50, 0⟩]
    movements := []
    sales := []
    sale_items := []
    loyalty_transactions := []
    purchase_orders :=
      [⟨1, "PO-1", 1, 1, "Approved", 120, 0, 120, "", none⟩,
       ⟨2, "PO-2", 1, 1, "Pending", 50, 0, 50, "", none⟩,
       ⟨3, "PO-3", 1, 1, "Received", 10, 0, 10, "", none⟩]
    purchase_order_items :=
      [⟨1, 1, 1, 10, 0, 8⟩, ⟨2, 1, 2, 4, 0, 10⟩]
    loyalty_rate_setting := none }

/-- wAdjReq is an ADJUSTMENT of product 1 at branch 1 to absolute stock 10
(the row currently holds 50). -/
def wAdjReq : AdjustRequest :=
  ⟨some 1, some 1, some 10, some "ADJUSTMENT", none, none, none⟩

/-- wAdjInReq is an IN adjustment of 5 units of product 1 at branch 1. -/
def wAdjInReq : AdjustRequest :=
  ⟨some 1, some 1, some 5, some "IN", none, none, none⟩

/-- wTransferReq moves 5 units of product 1 from branch 1 to branch 2. -/
def wTransferReq : TransferRequest :=
  ⟨some 1, some 1, some 2, some 5, none⟩

/-- wReceiveFull receives the full ordered quantities of order 1. -/
def wReceiveFull : List ReceiveItemRequest :=
  [⟨some 1, some 10⟩, ⟨some 2, some 4⟩]

/-- wReceivePartial receives only part of item 1 of order 1. -/
def wReceivePartial : List ReceiveItemRequest :=
  [⟨some 1, some 3⟩]

/-- wPOUpdateReq writes the raw status string `Received` through the generic
update endpoint. -/
def wPOUpdateReq : UpdatePORequest := ⟨none, some "Received", none⟩

/-- wAdjInMv is the movement recorded by adjusting product 1 IN by 5. -/
def wAdjInMv : StockMovement := ⟨1, 1, "IN", 5, none, "", "", 9⟩

/-- wAdjInSt is wBase after the IN adjustment of 5 units. -/
def wAdjInSt : Store :=
  { wBase with
    inventories := [⟨1, 1, 55, 0⟩, ⟨2, 1, 2, 0⟩, ⟨1, 2, 20, 0⟩]
    movements := [wAdjInMv] }

/-- wAdjMv is the movement recorded by the ADJUSTMENT to absolute stock 10:
its quantity field is the raw request quantity 10, not the applied delta. -/
def wAdjMv : StockMovement := ⟨1, 1, "ADJUSTMENT", 10, none, "", "", 9⟩

/-- wAdjSt is wBase after the ADJUSTMENT of product 1 at branch 1 to 10. -/
def wAdjSt : Store :=
  { wBase with
    inventories := [⟨1, 1, 10, 0⟩, ⟨2, 1, 2, 0⟩, ⟨1, 2, 20, 0⟩]
    movements := [wAdjMv] }

/-- wNoTotalReq is wSaleReq with the total_amount key absent. -/
def wNoTotalReq : SaleRequest := { wSaleReq with total_amount := none }

/-- wSale is the sale created by wSaleReq: 2 × 10.00 with 8.5% tax. -/
def wSale : Sale :=
  ⟨1, "SALE-1", some 7, 1, 1, 20, 17/10, 0, 217/10, "Cash", "Completed", ""⟩

/-- wSaleItem is the single line item of wSale. -/
def wSaleItem : SaleItem := ⟨1, 1, 2, 10, 0, 17/10, 217/10⟩

/-- wSaleSt is wBase after creating wSale (stock 50 → 48, 21 points earned on
a 21.70 total at the default loyalty rate 1.0). -/
def wSaleSt : Store :=
  { wBase with
    customers := [⟨7, 26, 217/10⟩]
    inventories := [⟨1, 1, 48, 0⟩, ⟨2, 1, 2, 0⟩, ⟨1, 2, 20, 0⟩]
    movements := [⟨1, 1, "OUT", -2, none, "SALE-", "Sale transaction", 1⟩]
    sales := [wSale]
    sale_items := [wSaleItem]
    loyalty_transactions := [⟨7, some 1, "EARNED", 21⟩] }

/-- short_line s bid x states the premise of the insufficient-stock claim for
one request line: at branch bid the line's product has no inventory row, or
its available_stock is below the requested quantity. -/
def short_line (s : Store) (bid : Nat) (x : SaleItemRequest) : Prop :=
  s.inventories.find? (invKey (x.product_id.getD 0) bid) = none ∨
  ∃ inv, s.inventories.find? (invKey (x.product_id.getD 0) bid) = some inv ∧
    inv.available_stock < x.quantity.getD 0

/-- ReceiveEntriesOK po entries s states the well-formedness premises of a
receive request against store s: every entry carries a positive quantity and
names an existing item of order po, entries name pairwise-distinct items, and
those items concern pairwise-distinct products. -/
def ReceiveEntriesOK (po : PurchaseOrder)
    (entries : List ReceiveItemRequest) (s : Store) : Prop :=
  (∀ r ∈ entries, 0 < r.received_quantity.getD 0 ∧
    ∃ item, poItemAt s (r.item_id.getD 0) = some item ∧
      item.purchase_order_id = po.id) ∧
  entries.Pairwise (fun a b => a.item_id.getD 0 ≠ b.item_id.getD 0) ∧
  entries.Pairwise (fun a b =>
    (poItemAt s (a.item_id.getD 0)).map (·.product_id) ≠
    (poItemAt s (b.item_id.getD 0)).map (·.product_id))

/-- ReceiveProcessed po uid entries s states the outcome of the receive loop
on store s: it succeeds, leaves purchase orders untouched, appends one IN
movement per entry, increments each named item's received_quantity and the
matching branch stock by the entry's quantity, and touches no other item or
inventory row. -/
def ReceiveProcessed (po : PurchaseOrder) (uid : Nat)
    (entries : List ReceiveItemRequest) (s : Store) : Prop :=
  ∃ st, process_received_items po uid entries s = .ok st ∧
    st.purchase_orders = s.purchase_orders ∧
    st.movements = s.movements ++ entries.map (receiveMovementOf s po uid) ∧
    (∀ x ∈ entries, ∀ it2, poItemAt s (x.item_id.getD 0) = some it2 →
      poItemAt st (x.item_id.getD 0) = some { it2 with
        received_quantity :=
          it2.received_quantity + x.received_quantity.getD 0 } ∧
      stockAt st it2.product_id po.branch_id =
        stockAt s it2.product_id po.branch_id +
          x.received_quantity.getD 0) ∧
    (∀ iid, (∀ x ∈ entries, iid ≠ x.item_id.getD 0) →
      poItemAt st iid = poItemAt s iid) ∧
    (∀ pid bid,
      (∀ x ∈ entries, ∀ it2, poItemAt s (x.item_id.getD 0) = some it2 →
        ¬(it2.product_id = pid ∧ po.branch_id = bid)) →
      st.inventories.find? (invKey pid bid) =
        s.inventories.find? (invKey pid bid))

/-! ## Helper lemmas about updateFirst and find? -/

theorem find?_updateFirst_hit {α : Type} (p : α → Bool) (f : α → α)
    (l : List α) (hf : ∀ a, p a = true → p (f a) = true) :
    (updateFirst p f l).find? p = (l.find? p).map f := by
  induction l with
  | nil => rfl
  | cons x xs ih =>
    by_cases hx : p x = true
    · rw [updateFirst, if_pos hx, List.find?_cons_of_pos _ (hf x hx),
        List.find?_cons_of_pos _ hx]
      rfl
    · rw [updateFirst, if_neg hx, List.find?_cons_of_neg _ hx,
        List.find?_cons_of_neg _ hx, ih]

theorem find?_updateFirst_disjoint {α : Type} (p q : α → Bool) (f : α → α)
    (l : List α) (hq : ∀ a, q (f a) = q a)
    (hpq : ∀ a, p a = true → q a = false) :
    (updateFirst p f l).find? q = l.find? q := by
  induction l with
  | nil => rfl
  | cons x xs ih =>
    by_cases hx : p x = true
    · have hqx : q x = false := hpq x hx
      rw [updateFirst, if_pos hx,
        List.find?_cons_of_neg _ (by simp [hq x, hqx]),
        List.find?_cons_of_neg _ (by simp [hqx])]
    · by_cases hqx : q x = true
      · rw [updateFirst, if_neg hx, List.find?_cons_of_pos _ hqx,
          List.find?_cons_of_pos _ hqx]
      · rw [updateFirst, if_neg hx, List.find?_cons_of_neg _ hqx,
          List.find?_cons_of_neg _ hqx, ih]

/-! ## C7: purchase order state machine guards -/

/-- C7: purchase orders follow Pending → Approved → Received with Cancelled
reachable from Pending/Approved: approving a non-Pending order, receiving a
non-Approved order, and cancelling a Received or Cancelled order all fail with
an invalid-state-transition error; an error result carries no store, so the
order's status is unchanged. -/
theorem purchase_order_state_machine (s : Store) (po_id : Nat)
    (po : PurchaseOrder) (entries : List ReceiveItemRequest) (uid : Nat)
    (reason : String) (hpo : poAt s po_id = some po) :
    (po.status ≠ "Pending" →
      approve_purchase_order s po_id = .error .invalidStateTransition) ∧
    (po.status ≠ "Approved" →
      receive_purchase_order s po_id entries uid = .error .invalidStateTransition) ∧
    (po.status = "Received" ∨ po.status = "Cancelled" →
      cancel_purchase_order s po_id reason = .error .invalidStateTransition) := by
  refine ⟨fun h => ?_, fun h => ?_, fun h => ?_⟩
  · simp [approve_purchase_order, hpo, h]
  · simp [receive_purchase_order, hpo, h]
  · rcases h with h | h <;> simp [cancel_purchase_order, hpo, h]

theorem purchase_order_state_machine_witness :
    approve_purchase_order wPO 1 = .error .invalidStateTransition ∧
    receive_purchase_order wPO 2 [] 9 = .error .invalidStateTransition ∧
    cancel_purchase_order wPO 3 "dup" = .error .invalidStateTransition :=
  ⟨(purchase_order_state_machine wPO 1
      ⟨1, "PO-1", 1, 1, "Approved", 120, 0, 120, "", none⟩ [] 9 "dup"
      (by with_unfolding_all decide)).1 (by decide),
   (purchase_order_state_machine wPO 2
      ⟨2, "PO-2", 1, 1, "Pending", 50, 0, 50, "", none⟩ [] 9 "dup"
      (by with_unfolding_all decide)).2.1 (by decide),
   (purchase_order_state_machine wPO 3
      ⟨3, "PO-3", 1, 1, "Received", 10, 0, 10, "", none⟩ [] 9 "dup"
      (by with_unfolding_all decide)).2.2 (Or.inl rfl)⟩

/-! ## C10: the generic update endpoint bypasses the state machine -/


/-- C10: for a purchase order that is neither Received nor Cancelled,
update_purchase_order writes any caller-supplied status string directly onto
the order — for example a Pending order can be moved straight to `Received`
or to an arbitrary string, bypassing the approve/receive/cancel checks. -/
theorem update_purchase_order_status_bypass (s : Store) (po_id : Nat)
    (po : PurchaseOrder) (r : UpdatePORequest) (new_status : String)
    (hpo : poAt s po_id = some po)
    (h1 : po.status ≠ "Received") (h2 : po.status ≠ "Cancelled")
    (hs : r.status = some new_status)
    (hd : r.expected_delivery_date ≠ some none) :
    ∃ st po1, update_purchase_order s po_id r = .ok (st, po1) ∧
      po1.status = new_status ∧ statusAt st po_id = some new_status := by
  have hfind : s.purchase_orders.find? (fun p => p.id == po_id) = some po := hpo
  have hpid : (po.id == po_id) = true := by
    have h := List.find?_some hfind
    simpa using h
  have heval : update_purchase_order s po_id r = .ok
      (setPurchaseOrders s (updateFirst (fun p => p.id == po_id)
        (fun _ => updatedPO po r) s.purchase_orders), updatedPO po r) := by
    simp only [update_purchase_order, hpo]
    rw [if_neg (by simp [h1, h2]), if_neg (by simp [hd])]
    rfl
  have hst1 : (updatedPO po r).status = new_status := by simp [updatedPO, hs]
  have hst2 : statusAt (setPurchaseOrders s (updateFirst (fun p => p.id == po_id)
      (fun _ => updatedPO po r) s.purchase_orders)) po_id = some new_status := by
    show ((updateFirst (fun p => p.id == po_id) (fun _ => updatedPO po r)
        s.purchase_orders).find? (fun p => p.id == po_id)).map (·.status) =
      some new_status
    have hf : ∀ a : PurchaseOrder, (a.id == po_id) = true →
        ((updatedPO po r).id == po_id) = true := fun a _ => hpid
    rw [find?_updateFirst_hit _ _ _ hf, hfind]
    simp [updatedPO, hs]
  exact ⟨_, _, heval, hst1, hst2⟩

theorem invKey_disjoint (pid bid pid2 bid2 : Nat)
    (hne : ¬(pid = pid2 ∧ bid = bid2)) :
    ∀ a : Inventory, invKey pid bid a = true → invKey pid2 bid2 a = false := by
  intro a ha
  simp only [invKey, Bool.and_eq_true, beq_iff_eq] at ha
  simp only [invKey, Bool.and_eq_false_iff, beq_eq_false_iff_ne, ne_eq]
  rcases ha with ⟨h1, h2⟩
  subst h1 h2
  by_cases hp : a.product_id = pid2
  · exact Or.inr (fun hb => hne ⟨hp, hb⟩)
  · exact Or.inl hp


theorem stockOf_updateFirst_set (l : List Inventory) (pid bid : Nat) (v : ℤ)
    (a : Inventory) (ha : l.find? (invKey pid bid) = some a) :
    stockOf (updateFirst (invKey pid bid)
      (fun inv => { inv with current_stock := v }) l) pid bid = v := by
  unfold stockOf
  rw [find?_updateFirst_hit (invKey pid bid)
    (fun inv => { inv with current_stock := v }) l (fun b hb => hb), ha]
  rfl

theorem find?_append_created (l : List Inventory) (pid bid : Nat)
    (hnone : l.find? (invKey pid bid) = none) :
    (l ++ [(⟨pid, bid, 0, 0⟩ : Inventory)]).find? (invKey pid bid) =
      some ⟨pid, bid, 0, 0⟩ := by
  rw [List.find?_append, hnone]
  simp [invKey]

/-! ## C4: adjust_stock appends exactly one movement -/

/-- C4 (amended): every successful adjust_stock appends exactly one
StockMovement; for `IN` and `OUT` its quantity equals the signed delta applied
to current_stock, but for `ADJUSTMENT` it equals the new absolute stock value
(the raw request quantity), not `new_stock - old_stock`. -/
theorem adjust_stock_movement_spec (s : Store) (r : AdjustRequest) (uid : Nat)
    (st : Store) (inv : Inventory) (mv : StockMovement)
    (h : adjust_stock s r uid = .ok (st, inv, mv)) :
    st.movements = s.movements ++ [mv] ∧
    stockAt st mv.product_id mv.branch_id = inv.current_stock ∧
    (mv.movement_type = "IN" ∨ mv.movement_type = "OUT" →
      mv.quantity = inv.current_stock - stockAt s mv.product_id mv.branch_id) ∧
    (mv.movement_type = "ADJUSTMENT" → mv.quantity = inv.current_stock) := by
  simp only [adjust_stock] at h
  split at h
  · exact Except.noConfusion h
  next product_id hp =>
  split at h
  · exact Except.noConfusion h
  next branch_id hb =>
  split at h
  · exact Except.noConfusion h
  next quantity hq =>
  split at h
  · exact Except.noConfusion h
  next movement_type hm =>
  split at h
  · exact Except.noConfusion h
  next _prod hprod =>
  split at h
  · exact Except.noConfusion h
  next _br hbr =>
  split at h
  next e heq => exact Except.noConfusion h
  next new_stock heq =>
  rw [Except.ok.injEq, Prod.mk.injEq] at h
  obtain ⟨hst, h23⟩ := h
  rw [Prod.mk.injEq] at h23
  obtain ⟨hinv, hmv⟩ := h23
  subst hst hinv hmv
  cases hfetch : s.inventories.find? (invKey product_id branch_id) with
  | some a =>
    rw [hfetch, Option.getD_some] at heq
    simp only [hfetch]
    have hastock : stockOf s.inventories product_id branch_id =
        a.current_stock := by
      unfold stockOf
      rw [hfetch]
      rfl
    split at heq
    next hIN =>
      have hmt : movement_type = "IN" := by simpa using hIN
      subst hmt
      rw [Except.ok.injEq] at heq
      subst heq
      refine ⟨trivial, ?_, ?_, ?_⟩
      · exact stockOf_updateFirst_set _ _ _ _ a hfetch
      · intro _
        show (if (("IN" : String) != "OUT") = true then quantity
            else -quantity) =
          a.current_stock + quantity - stockOf s.inventories product_id branch_id
        rw [if_pos (by decide), hastock]
        omega
      · intro habs
        exact absurd habs (by decide)
    next hIN =>
      split at heq
      next hOUT =>
        have hmt : movement_type = "OUT" := by simpa using hOUT
        subst hmt
        split at heq
        next hshort => exact Except.noConfusion heq
        next hshort =>
          rw [Except.ok.injEq] at heq
          subst heq
          refine ⟨trivial, ?_, ?_, ?_⟩
          · exact stockOf_updateFirst_set _ _ _ _ a hfetch
          · intro _
            show (if (("OUT" : String) != "OUT") = true then quantity
                else -quantity) =
              a.current_stock - quantity -
                stockOf s.inventories product_id branch_id
            rw [if_neg (by decide), hastock]
            omega
          · intro habs
            exact absurd habs (by decide)
      next hOUT =>
        split at heq
        next hADJ =>
          have hmt : movement_type = "ADJUSTMENT" := by simpa using hADJ
          subst hmt
          rw [Except.ok.injEq] at heq
          subst heq
          refine ⟨trivial, ?_, ?_, ?_⟩
          · exact stockOf_updateFirst_set _ _ _ _ a hfetch
          · intro habs
            rcases habs with habs | habs <;> exact absurd habs (by decide)
          · intro _
            show (if (("ADJUSTMENT" : String) != "OUT") = true then quantity
                else -quantity) = quantity
            rw [if_pos (by decide)]
        next hADJ => exact Except.noConfusion heq
  | none =>
    rw [hfetch] at heq
    simp only [hfetch]
    have hastock : stockOf s.inventories product_id branch_id = 0 := by
      unfold stockOf
      rw [hfetch]
      rfl
    have hfres : (s.inventories ++
        [(⟨product_id, branch_id, 0, 0⟩ : Inventory)]).find?
        (invKey product_id branch_id) = some ⟨product_id, branch_id, 0, 0⟩ :=
      find?_append_created _ _ _ hfetch
    split at heq
    next hIN =>
      have hmt : movement_type = "IN" := by simpa using hIN
      subst hmt
      rw [Except.ok.injEq] at heq
      subst heq
      refine ⟨trivial, ?_, ?_, ?_⟩
      · exact stockOf_updateFirst_set _ _ _ _ _ hfres
      · intro _
        show (if (("IN" : String) != "OUT") = true then quantity
            else -quantity) =
          (Option.getD none (⟨product_id, branch_id, 0, 0⟩ :
            Inventory)).current_stock + quantity -
            stockOf s.inventories product_id branch_id
        rw [if_pos (by decide), hastock]
        show quantity = 0 + quantity - 0
        omega
      · intro habs
        exact absurd habs (by decide)
    next hIN =>
      split at heq
      next hOUT =>
        have hmt : movement_type = "OUT" := by simpa using hOUT
        subst hmt
        split at heq
        next hshort => exact Except.noConfusion heq
        next hshort =>
          rw [Except.ok.injEq] at heq
          subst heq
          refine ⟨trivial, ?_, ?_, ?_⟩
          · exact stockOf_updateFirst_set _ _ _ _ _ hfres
          · intro _
            show (if (("OUT" : String) != "OUT") = true then quantity
                else -quantity) =
              (Option.getD none (⟨product_id, branch_id, 0, 0⟩ :
                Inventory)).current_stock - quantity -
                stockOf s.inventories product_id branch_id
            rw [if_neg (by decide), hastock]
            show -quantity = 0 - quantity - 0
            omega
          · intro habs
            exact absurd habs (by decide)
      next hOUT =>
        split at heq
        next hADJ =>
          have hmt : movement_type = "ADJUSTMENT" := by simpa using hADJ
          subst hmt
          rw [Except.ok.injEq] at heq
          subst heq
          refine ⟨trivial, ?_, ?_, ?_⟩
          · exact stockOf_updateFirst_set _ _ _ _ _ hfres
          · intro habs
            rcases habs with habs | habs <;> exact absurd habs (by decide)
          · intro _
            show (if (("ADJUSTMENT" : String) != "OUT") = true then quantity
                else -quantity) = quantity
            rw [if_pos (by decide)]
        next hADJ => exact Except.noConfusion heq

theorem adjust_stock_movement_spec_witness :
    adjust_stock wBase wAdjInReq 9 = .ok (wAdjInSt, ⟨1, 1, 55, 0⟩, wAdjInMv) ∧
    (wAdjInSt.movements = wBase.movements ++ [wAdjInMv] ∧
      stockAt wAdjInSt wAdjInMv.product_id wAdjInMv.branch_id =
        (⟨1, 1, 55, 0⟩ : Inventory).current_stock ∧
      (wAdjInMv.movement_type = "IN" ∨ wAdjInMv.movement_type = "OUT" →
        wAdjInMv.quantity = (⟨1, 1, 55, 0⟩ : Inventory).current_stock -
          stockAt wBase wAdjInMv.product_id wAdjInMv.branch_id) ∧
      (wAdjInMv.movement_type = "ADJUSTMENT" →
        wAdjInMv.quantity = (⟨1, 1, 55, 0⟩ : Inventory).current_stock)) :=
  ⟨by with_unfolding_all decide,
   adjust_stock_movement_spec wBase wAdjInReq 9 wAdjInSt ⟨1, 1, 55, 0⟩ wAdjInMv
     (by with_unfolding_all decide)⟩

/-- C4 counterexample: adjusting product 1 at branch 1 (current stock 50) with
movement type ADJUSTMENT to the absolute value 10 succeeds and records a
movement whose quantity field is 10, while the signed delta applied to the
row's current_stock is 10 − 50 = −40: the recorded quantity does not equal
new_stock − old_stock. -/
theorem adjustment_movement_quantity_cex :
    adjust_stock wBase wAdjReq 9 = .ok (wAdjSt, ⟨1, 1, 10, 0⟩, wAdjMv) ∧
    wAdjMv.quantity = 10 ∧
    (⟨1, 1, 10, 0⟩ : Inventory).current_stock - stockAt wBase 1 1 = -40 ∧
    (10 : ℤ) ≠ -40 :=
  ⟨by with_unfolding_all decide, by decide,
   by with_unfolding_all decide, by decide⟩

theorem update_purchase_order_status_bypass_witness :
    poAt wPO 2 = some ⟨2, "PO-2", 1, 1, "Pending", 50, 0, 50, "", none⟩ ∧
    (∃ st po1, update_purchase_order wPO 2 wPOUpdateReq = .ok (st, po1) ∧
      po1.status = "Received" ∧ statusAt st 2 = some "Received") :=
  ⟨by with_unfolding_all decide,
   update_purchase_order_status_bypass wPO 2
     ⟨2, "PO-2", 1, 1, "Pending", 50, 0, 50, "", none⟩ wPOUpdateReq "Received"
     (by with_unfolding_all decide) (by decide) (by decide) (by decide)
     (by decide)⟩

/-! ## C5: stock transfer between branches -/

theorem find?_append_other (l : List Inventory) (pid bid pid2 bid2 : Nat)
    (hne : ¬(pid2 = pid ∧ bid2 = bid)) :
    (l ++ [(⟨pid2, bid2, 0, 0⟩ : Inventory)]).find? (invKey pid bid) =
      l.find? (invKey pid bid) := by
  rw [List.find?_append]
  have hsing : ([(⟨pid2, bid2, 0, 0⟩ : Inventory)]).find? (invKey pid bid) =
      none := by
    rw [List.find?_cons_of_neg]
    · rfl
    · simp only [invKey, Bool.and_eq_true, beq_iff_eq]
      exact fun h => hne ⟨h.1, h.2⟩
  rw [hsing]
  cases l.find? (invKey pid bid) <;> rfl

theorem transfer_tables_spec (l : List Inventory) (pid A B : Nat) (q : ℤ)
    (hAB : A ≠ B) (finv : Inventory)
    (hfA : l.find? (invKey pid A) = some finv) :
    stockOf (transfer_tables l pid A B q) pid A = stockOf l pid A - q ∧
    stockOf (transfer_tables l pid A B q) pid B = stockOf l pid B + q ∧
    ((transfer_tables l pid A B q).find? (invKey pid B)).isSome := by
  have hneBA : ¬(pid = pid ∧ B = A) := fun h => hAB h.2.symm
  have hneAB : ¬(pid = pid ∧ A = B) := fun h => hAB h.2
  cases hfB : l.find? (invKey pid B) with
  | some binv =>
    simp only [transfer_tables, hfB]
    refine ⟨?_, ?_, ?_⟩
    · unfold stockOf
      rw [find?_updateFirst_disjoint (invKey pid B) (invKey pid A)
          (fun inv => { inv with current_stock := inv.current_stock + q }) _
          (fun a => rfl) (invKey_disjoint pid B pid A hneBA),
        find?_updateFirst_hit (invKey pid A)
          (fun inv => { inv with current_stock := inv.current_stock - q }) _
          (fun b hb => hb), hfA]
      rfl
    · unfold stockOf
      rw [find?_updateFirst_hit (invKey pid B)
          (fun inv => { inv with current_stock := inv.current_stock + q }) _
          (fun b hb => hb),
        find?_updateFirst_disjoint (invKey pid A) (invKey pid B)
          (fun inv => { inv with current_stock := inv.current_stock - q }) _
          (fun a => rfl) (invKey_disjoint pid A pid B hneAB), hfB]
      rfl
    · rw [find?_updateFirst_hit (invKey pid B)
          (fun inv => { inv with current_stock := inv.current_stock + q }) _
          (fun b hb => hb),
        find?_updateFirst_disjoint (invKey pid A) (invKey pid B)
          (fun inv => { inv with current_stock := inv.current_stock - q }) _
          (fun a => rfl) (invKey_disjoint pid A pid B hneAB), hfB]
      rfl
  | none =>
    simp only [transfer_tables, hfB]
    have hfA0 : (l ++ [(⟨pid, B, 0, 0⟩ : Inventory)]).find? (invKey pid A) =
        some finv := by
      rw [find?_append_other _ pid A pid B hneBA]
      exact hfA
    have hfB0 : (l ++ [(⟨pid, B, 0, 0⟩ : Inventory)]).find? (invKey pid B) =
        some ⟨pid, B, 0, 0⟩ := find?_append_created _ _ _ hfB
    refine ⟨?_, ?_, ?_⟩
    · unfold stockOf
      rw [find?_updateFirst_disjoint (invKey pid B) (invKey pid A)
          (fun inv => { inv with current_stock := inv.current_stock + q }) _
          (fun a => rfl) (invKey_disjoint pid B pid A hneBA),
        find?_updateFirst_hit (invKey pid A)
          (fun inv => { inv with current_stock := inv.current_stock - q }) _
          (fun b hb => hb), hfA0, hfA]
      rfl
    · unfold stockOf
      rw [find?_updateFirst_hit (invKey pid B)
          (fun inv => { inv with current_stock := inv.current_stock + q }) _
          (fun b hb => hb),
        find?_updateFirst_disjoint (invKey pid A) (invKey pid B)
          (fun inv => { inv with current_stock := inv.current_stock - q }) _
          (fun a => rfl) (invKey_disjoint pid A pid B hneAB), hfB0, hfB]
      rfl
    · rw [find?_updateFirst_hit (invKey pid B)
          (fun inv => { inv with current_stock := inv.current_stock + q }) _
          (fun b hb => hb),
        find?_updateFirst_disjoint (invKey pid A) (invKey pid B)
          (fun inv => { inv with current_stock := inv.current_stock - q }) _
          (fun a => rfl) (invKey_disjoint pid A pid B hneAB), hfB0]
      rfl

theorem transfer_apply_spec (s : Store) (pid A B : Nat) (q : ℤ) (note : String)
    (uid : Nat) (hAB : A ≠ B) (finv : Inventory)
    (hfA : s.inventories.find? (invKey pid A) = some finv) :
    stockAt (transfer_apply s pid A B q note uid) pid A =
      stockAt s pid A - q ∧
    stockAt (transfer_apply s pid A B q note uid) pid B =
      stockAt s pid B + q ∧
    ((transfer_apply s pid A B q note uid).inventories.find?
      (invKey pid B)).isSome ∧
    (transfer_apply s pid A B q note uid).movements = s.movements ++
      [⟨pid, A, "TRANSFER", -q, none, transfer_reference s,
        "Transfer out. " ++ note, uid⟩,
       ⟨pid, B, "TRANSFER", q, none, transfer_reference s,
        "Transfer in. " ++ note, uid⟩] := by
  obtain ⟨h1, h2, h3⟩ :=
    transfer_tables_spec s.inventories pid A B q hAB finv hfA
  exact ⟨h1, h2, h3, rfl⟩

/-- C5: a transfer of q units of a product from branch A to branch B (both
existing, A ≠ B) with sufficient available stock decreases A's current_stock
by q, increases B's by q (creating B's row at 0 if absent), and appends
exactly two TRANSFER movements with quantities −q and +q sharing one
reference token; it fails with InvalidTransfer when A = B and with
InsufficientStock when the source row is absent or under-stocked, and an
error result carries no store change. -/
theorem transfer_stock_spec (s : Store) (r : TransferRequest) (uid : Nat)
    (pid A B : Nat) (q : ℤ)
    (hp : r.product_id = some pid) (hA : r.from_branch_id = some A)
    (hB : r.to_branch_id = some B) (hq : r.quantity = some q)
    (prod : Product) (hprod : s.products.find? (fun p => p.id == pid) = some prod)
    (bA : Branch) (hbA : s.branches.find? (fun b => b.id == A) = some bA)
    (bB : Branch) (hbB : s.branches.find? (fun b => b.id == B) = some bB) :
    (A = B → transfer_stock s r uid = .error .invalidTransfer) ∧
    (A ≠ B → s.inventories.find? (invKey pid A) = none →
      transfer_stock s r uid = .error .insufficientStock) ∧
    (∀ finv, A ≠ B → s.inventories.find? (invKey pid A) = some finv →
      (finv.available_stock < q →
        transfer_stock s r uid = .error .insufficientStock) ∧
      (¬finv.available_stock < q →
        transfer_stock s r uid =
          .ok (transfer_apply s pid A B q (r.notes.getD "") uid) ∧
        stockAt (transfer_apply s pid A B q (r.notes.getD "") uid) pid A =
          stockAt s pid A - q ∧
        stockAt (transfer_apply s pid A B q (r.notes.getD "") uid) pid B =
          stockAt s pid B + q ∧
        ((transfer_apply s pid A B q (r.notes.getD "") uid).inventories.find?
          (invKey pid B)).isSome ∧
        (transfer_apply s pid A B q (r.notes.getD "") uid).movements =
          s.movements ++
          [⟨pid, A, "TRANSFER", -q, none, transfer_reference s,
            "Transfer out. " ++ (r.notes.getD ""), uid⟩,
           ⟨pid, B, "TRANSFER", q, none, transfer_reference s,
            "Transfer in. " ++ (r.notes.getD ""), uid⟩])) := by
  refine ⟨fun hAB => ?_, fun hAB hnone => ?_, fun finv hAB hfA => ⟨fun hlt => ?_, fun hge => ?_⟩⟩
  · simp [transfer_stock, hp, hA, hB, hq, hAB]
  · simp [transfer_stock, hp, hA, hB, hq, hAB, hprod, hbA, hbB, hnone]
  · simp [transfer_stock, hp, hA, hB, hq, hAB, hprod, hbA, hbB, hfA, hlt]
  · obtain ⟨h1, h2, h3, h4⟩ :=
      transfer_apply_spec s pid A B q (r.notes.getD "") uid hAB finv hfA
    refine ⟨?_, h1, h2, h3, h4⟩
    simp [transfer_stock, hp, hA, hB, hq, hAB, hprod, hbA, hbB, hfA, hge]

theorem transfer_stock_spec_witness :
    (1 : Nat) ≠ 2 ∧
    (transfer_stock wBase wTransferReq 9 =
        .ok (transfer_apply wBase 1 1 2 5 "" 9) ∧
      stockAt (transfer_apply wBase 1 1 2 5 "" 9) 1 1 =
        stockAt wBase 1 1 - 5 ∧
      stockAt (transfer_apply wBase 1 1 2 5 "" 9) 1 2 =
        stockAt wBase 1 2 + 5 ∧
      ((transfer_apply wBase 1 1 2 5 "" 9).inventories.find?
        (invKey 1 2)).isSome ∧
      (transfer_apply wBase 1 1 2 5 "" 9).movements = wBase.movements ++
        [⟨1, 1, "TRANSFER", -5, none, transfer_reference wBase,
          "Transfer out. " ++ (wTransferReq.notes.getD ""), 9⟩,
         ⟨1, 2, "TRANSFER", 5, none, transfer_reference wBase,
          "Transfer in. " ++ (wTransferReq.notes.getD ""), 9⟩]) :=
  ⟨by decide,
   ((transfer_stock_spec wBase wTransferReq 9 1 1 2 5 rfl rfl rfl rfl
      ⟨1, 10, 17/2, true⟩ (by with_unfolding_all decide)
      ⟨1, true⟩ (by decide) ⟨2, true⟩ (by decide)).2.2
      ⟨1, 1, 50, 0⟩ (by decide) (by decide)).2 (by decide)⟩

/-! ## create_sale: success characterisation -/

theorem create_sale_ok_elim (s : Store) (r : SaleRequest) (uid : Nat)
    (out : Store × Sale × List SaleItem)
    (h : create_sale s r uid = .ok out) :
    ∃ bid items_data pm customer validated sub_total total_tax,
      r.branch_id = some bid ∧ r.items = some items_data ∧
      r.payment_method = some pm ∧ r.total_amount.isSome = true ∧
      items_data ≠ [] ∧
      (s.branches.find? (fun b => b.id == bid)).isSome = true ∧
      findCustomer s r.customer_id = .ok customer ∧
      validateItems s bid items_data = .ok (validated, sub_total, total_tax) ∧
      out = finishSale s r bid pm customer validated sub_total total_tax uid := by
  simp only [create_sale] at h
  split at h
  · exact Except.noConfusion h
  next bid hb =>
  split at h
  · exact Except.noConfusion h
  next items_data hi =>
  split at h
  · exact Except.noConfusion h
  next pm hpm =>
  split at h
  · exact Except.noConfusion h
  next hta =>
  split at h
  · exact Except.noConfusion h
  next hne =>
  split at h
  · exact Except.noConfusion h
  next _b hbr =>
  split at h
  · exact Except.noConfusion h
  next customer hc =>
  split at h
  · exact Except.noConfusion h
  next validated sub_total total_tax hv =>
  rw [Except.ok.injEq] at h
  refine ⟨bid, items_data, pm, customer, validated, sub_total, total_tax,
    hb, hi, hpm, ?_, ?_, ?_, hc, hv, h.symm⟩
  · simp only [Bool.not_eq_true, Option.isNone_eq_false_iff] at hta
    exact Option.isSome_iff_ne_none.mpr (by
      intro hnone
      rw [hnone] at hta
      simp [Option.isSome] at hta)
  · intro hnil
    exact hne (by rw [hnil]; rfl)
  · rw [hbr]
    rfl

/-! ## C9: total_amount is required but ignored -/

/-- C9: create_sale rejects a request missing branch_id, items,
payment_method or total_amount with a missing-field validation error, yet the
supplied total_amount value is ignored: changing it changes nothing, and a
persisted sale's total_amount is always recomputed as
sub_total + tax_amount − discount_amount from the line items and order-level
discount. -/
theorem create_sale_total_amount_required_but_ignored (s : Store)
    (r : SaleRequest) (uid : Nat) :
    ((r.branch_id = none ∨ r.items = none ∨ r.payment_method = none ∨
        r.total_amount = none) →
      ∃ f, create_sale s r uid = .error (.missingField f)) ∧
    (∀ v1 v2 : ℚ,
      create_sale s { r with total_amount := some v1 } uid =
      create_sale s { r with total_amount := some v2 } uid) ∧
    (∀ st sale its, create_sale s r uid = .ok (st, sale, its) →
      sale.total_amount =
        sale.sub_total + sale.tax_amount - sale.discount_amount ∧
      sale.discount_amount = r.discount_amount.getD 0) := by
  refine ⟨fun h => ?_, fun v1 v2 => ?_, fun st sale its h => ?_⟩
  · rcases hb : r.branch_id with _ | bid
    · exact ⟨"branch_id", by simp [create_sale, hb]⟩
    · rcases hi : r.items with _ | items
      · exact ⟨"items", by simp [create_sale, hb, hi]⟩
      · rcases hpm : r.payment_method with _ | pm
        · exact ⟨"payment_method", by simp [create_sale, hb, hi, hpm]⟩
        · rcases ht : r.total_amount with _ | t
          · exact ⟨"total_amount", by simp [create_sale, hb, hi, hpm, ht]⟩
          · exfalso
            rcases h with h | h | h | h <;> simp_all
  · cases r with
    | mk branch_id customer_id items payment_method total_amount disc notes =>
      rcases branch_id with _ | bid
      · rfl
      · rcases items with _ | l
        · rfl
        · rcases payment_method with _ | pm
          · rfl
          · rfl
  · obtain ⟨bid, items_data, pm, customer, v, subt, tt, hb, hi, hpm, hta,
      hne, hbr, hc, hv, hout⟩ := create_sale_ok_elim s r uid (st, sale, its) h
    rw [Prod.ext_iff] at hout
    obtain ⟨hst, hout2⟩ := hout
    rw [Prod.ext_iff] at hout2
    obtain ⟨hsale, hits⟩ := hout2
    subst hsale
    exact ⟨rfl, rfl⟩

/-! ## C2: sale totals are internally consistent -/

theorem validateItems_spec (s : Store) (bid : Nat)
    (l : List SaleItemRequest) (v : List ValidatedItem) (subt tt : ℚ)
    (h : validateItems s bid l = .ok (v, subt, tt)) :
    subt = (v.map (fun it =>
      it.unit_price * (it.quantity : ℚ) - it.discount_amount)).sum ∧
    tt = (v.map (·.tax_amount)).sum ∧
    ∀ it ∈ v,
      it.line_total = it.unit_price * (it.quantity : ℚ) -
        it.discount_amount + it.tax_amount ∧
      ∃ p, s.products.find? (fun x => x.id == it.product_id) = some p ∧
        it.tax_amount = (it.unit_price * (it.quantity : ℚ) -
          it.discount_amount) * p.tax_rate / 100 := by
  induction l generalizing v subt tt with
  | nil =>
    simp only [validateItems] at h
    rw [Except.ok.injEq, Prod.ext_iff] at h
    obtain ⟨h1, h2⟩ := h
    rw [Prod.ext_iff] at h2
    obtain ⟨h2, h3⟩ := h2
    subst h1 h2 h3
    simp
  | cons x rest ih =>
    simp only [validateItems] at h
    split at h
    · exact Except.noConfusion h
    next hcond =>
    split at h
    · exact Except.noConfusion h
    next product hfind =>
    split at h
    · exact Except.noConfusion h
    next hactive =>
    split at h
    · exact Except.noConfusion h
    next inventory hinv =>
    split at h
    · exact Except.noConfusion h
    next hstock =>
    split at h
    · exact Except.noConfusion h
    next v2 subt2 tt2 hrec =>
    rw [Except.ok.injEq, Prod.ext_iff] at h
    obtain ⟨h1, h2⟩ := h
    rw [Prod.ext_iff] at h2
    obtain ⟨h2, h3⟩ := h2
    subst h1 h2 h3
    obtain ⟨ih1, ih2, ih3⟩ := ih v2 subt2 tt2 hrec
    refine ⟨?_, ?_, ?_⟩
    · rw [List.map_cons, List.sum_cons, ih1]
    · rw [List.map_cons, List.sum_cons, ih2]
    · intro it hit
      rcases List.mem_cons.mp hit with hhd | htl
      · subst hhd
        refine ⟨rfl, product, hfind, ?_⟩
        show (x.unit_price.getD product.selling_price *
            ((x.quantity.getD 0 : ℤ) : ℚ) - x.discount_amount.getD 0) *
            (product.tax_rate / 100) = _
        rw [mul_div_assoc]
      · exact ih3 it htl

/-- C2: for every successfully created sale, total_amount equals the sum of
the created items' line_total minus the order-level discount, each item's
line_total equals unit_price*quantity − discount + tax, and each item's tax
equals (unit_price*quantity − discount) * tax_rate/100 for its product's tax
rate as read at validation time. -/
theorem sale_totals_consistent (s : Store) (r : SaleRequest) (uid : Nat)
    (st : Store) (sale : Sale) (its : List SaleItem)
    (h : create_sale s r uid = .ok (st, sale, its)) :
    sale.total_amount = (its.map (·.line_total)).sum - sale.discount_amount ∧
    ∀ it ∈ its,
      it.line_total = it.unit_price * (it.quantity : ℚ) -
        it.discount_amount + it.tax_amount ∧
      ∃ p, s.products.find? (fun x => x.id == it.product_id) = some p ∧
        it.tax_amount = (it.unit_price * (it.quantity : ℚ) -
          it.discount_amount) * p.tax_rate / 100 := by
  obtain ⟨bid, items_data, pm, customer, v, subt, tt, hb, hi, hpm, hta,
    hne, hbr, hc, hv, hout⟩ := create_sale_ok_elim s r uid (st, sale, its) h
  obtain ⟨h1, h2, h3⟩ := validateItems_spec s bid items_data v subt tt hv
  simp only [finishSale] at hout
  rw [Prod.ext_iff] at hout
  obtain ⟨hst, hout2⟩ := hout
  rw [Prod.ext_iff] at hout2
  obtain ⟨hsale, hits⟩ := hout2
  subst hsale hits
  constructor
  · rw [List.map_map]
    have hcomp : ((fun si : SaleItem => si.line_total) ∘
        (fun vi : ValidatedItem =>
          (⟨s.sales.length + 1, vi.product_id, vi.quantity, vi.unit_price,
            vi.discount_amount, vi.tax_amount, vi.line_total⟩ : SaleItem))) =
        fun vi : ValidatedItem => vi.line_total := rfl
    rw [hcomp]
    have hcong : v.map (fun it : ValidatedItem => it.line_total) =
        v.map (fun it => (it.unit_price * (it.quantity : ℚ) -
          it.discount_amount) + it.tax_amount) :=
      List.map_congr_left (fun it hit => (h3 it hit).1)
    have hsum : (v.map (fun it : ValidatedItem => it.line_total)).sum =
        subt + tt := by
      rw [hcong, List.sum_map_add, ← h1, ← h2]
    show subt + tt - r.discount_amount.getD 0 = _
    rw [hsum]
  · intro it hit
    rcases List.mem_map.mp hit with ⟨vi, hvi, rfl⟩
    obtain ⟨hl, p, hp, htax⟩ := h3 vi hvi
    exact ⟨hl, p, hp, htax⟩

theorem sale_totals_consistent_witness :
    create_sale wBase wSaleReq 1 = .ok (wSaleSt, wSale, [wSaleItem]) ∧
    (wSale.total_amount = ([wSaleItem].map (·.line_total)).sum -
        wSale.discount_amount ∧
      ∀ it ∈ [wSaleItem],
        it.line_total = it.unit_price * (it.quantity : ℚ) -
          it.discount_amount + it.tax_amount ∧
        ∃ p, wBase.products.find? (fun x => x.id == it.product_id) = some p ∧
          it.tax_amount = (it.unit_price * (it.quantity : ℚ) -
            it.discount_amount) * p.tax_rate / 100) :=
  ⟨by with_unfolding_all decide,
   sale_totals_consistent wBase wSaleReq 1 wSaleSt wSale [wSaleItem]
     (by with_unfolding_all decide)⟩

theorem create_sale_total_amount_witness :
    wNoTotalReq.total_amount = none ∧
    (∃ f, create_sale wBase wNoTotalReq 1 = .error (.missingField f)) ∧
    create_sale wBase { wSaleReq with total_amount := some 999 } 1 =
      create_sale wBase { wSaleReq with total_amount := some 0 } 1 :=
  ⟨rfl,
   (create_sale_total_amount_required_but_ignored wBase wNoTotalReq 1).1
     (Or.inr (Or.inr (Or.inr rfl))),
   (create_sale_total_amount_required_but_ignored wBase wSaleReq 1).2.1 999 0⟩

/-! ## C8: loyalty points on sale creation -/

theorem pyInt_eq_floor_of_nonneg (q : ℚ) (h : 0 ≤ q) : pyInt q = ⌊q⌋ := by
  unfold pyInt
  rw [if_pos h]

theorem pyInt_pos_iff (q : ℚ) : 0 < pyInt q ↔ 0 < ⌊q⌋ := by
  unfold pyInt
  by_cases h : 0 ≤ q
  · rw [if_pos h]
  · rw [if_neg h]
    push_neg at h
    constructor
    · intro hpos
      exfalso
      have hfl : (0 : ℤ) ≤ ⌊-q⌋ := Int.floor_nonneg.mpr (by linarith)
      omega
    · intro hpos
      exfalso
      have h1 : (1 : ℚ) ≤ q := by
        have h2 : ((1 : ℤ) : ℚ) ≤ q := Int.le_floor.mp (by omega)
        simpa using h2
      linarith

theorem update_inventory_after_sale_preserves (v : List ValidatedItem)
    (bid uid : Nat) (s : Store) :
    (update_inventory_after_sale v bid uid s).customers = s.customers ∧
    (update_inventory_after_sale v bid uid s).loyalty_transactions =
      s.loyalty_transactions ∧
    (update_inventory_after_sale v bid uid s).loyalty_rate_setting =
      s.loyalty_rate_setting ∧
    (update_inventory_after_sale v bid uid s).sales = s.sales ∧
    (update_inventory_after_sale v bid uid s).sale_items = s.sale_items := by
  induction v generalizing s with
  | nil => exact ⟨rfl, rfl, rfl, rfl, rfl⟩
  | cons x rest ih =>
    simp only [update_inventory_after_sale]
    cases hfind : s.inventories.find? (invKey x.product_id bid) with
    | none => exact ih s
    | some a => exact ih _

theorem apply_loyalty_spec (c : Customer) (total : ℚ) (sid : Nat) (t : Store)
    (rate : ℚ) (hrate : t.loyalty_rate_setting.getD 1 = rate)
    (hc : customerAt t c.id = some c) :
    (0 < ⌊total * rate⌋ →
      customerAt (apply_loyalty (some c) total sid t) c.id = some { c with
        loyalty_points := c.loyalty_points + ⌊total * rate⌋,
        total_purchases := c.total_purchases + total } ∧
      (apply_loyalty (some c) total sid t).loyalty_transactions =
        t.loyalty_transactions ++
          [⟨c.id, some sid, "EARNED", ⌊total * rate⌋⟩]) ∧
    (⌊total * rate⌋ ≤ 0 →
      customerAt (apply_loyalty (some c) total sid t) c.id = some c ∧
      (apply_loyalty (some c) total sid t).loyalty_transactions =
        t.loyalty_transactions) := by
  by_cases hfl : 0 < ⌊total * rate⌋
  · have hpy : 0 < pyInt (total * t.loyalty_rate_setting.getD 1) := by
      rw [hrate]
      exact (pyInt_pos_iff _).mpr hfl
    have hpyeq : pyInt (total * t.loyalty_rate_setting.getD 1) =
        ⌊total * rate⌋ := by
      rw [hrate]
      refine (pyInt_eq_floor_of_nonneg _ ?_)
      have h2 : ((1 : ℤ) : ℚ) ≤ total * rate := Int.le_floor.mp (by omega)
      have h3 : (1 : ℚ) ≤ total * rate := by exact_mod_cast h2
      linarith
    refine ⟨fun _ => ?_, fun hle => absurd hfl (by omega)⟩
    simp only [apply_loyalty, if_pos hpy]
    constructor
    · show List.find? (fun x => x.id == c.id)
        (updateFirst (fun x => x.id == c.id)
          (fun x => { x with
            loyalty_points := x.loyalty_points +
              pyInt (total * t.loyalty_rate_setting.getD 1),
            total_purchases := x.total_purchases + total })
          t.customers) = _
      rw [find?_updateFirst_hit (fun x => x.id == c.id)
        (fun x => { x with
          loyalty_points := x.loyalty_points +
            pyInt (total * t.loyalty_rate_setting.getD 1),
          total_purchases := x.total_purchases + total })
        t.customers (fun a ha => ha)]
      rw [show t.customers.find? (fun x => x.id == c.id) = some c from hc]
      rw [hpyeq]
      rfl
    · show t.loyalty_transactions ++
        [⟨c.id, some sid, "EARNED",
          pyInt (total * t.loyalty_rate_setting.getD 1)⟩] = _
      rw [hpyeq]
  · have hpy : ¬0 < pyInt (total * t.loyalty_rate_setting.getD 1) := by
      rw [hrate]
      exact fun hp => hfl ((pyInt_pos_iff _).mp hp)
    refine ⟨fun hcon => absurd hcon hfl, fun _ => ?_⟩
    simp only [apply_loyalty, if_neg hpy]
    exact ⟨hc, trivial⟩

/-- C8: for every sale created with an attached customer, the points earned
are floor(total_amount * loyalty_rate) with the rate defaulting to 1.0, and
exactly when that floor is positive the customer's loyalty_points grows by
it, total_purchases grows by the sale total, and one EARNED loyalty
transaction referencing the sale is appended; otherwise the customer record
and the loyalty ledger are unchanged.  (The source computes
`int(total*rate)`, truncation toward zero; truncation and floor are positive
together and agree when positive, so the observable behaviour matches the
floor formulation.) -/
theorem loyalty_points_spec (s : Store) (r : SaleRequest) (uid : Nat)
    (st : Store) (sale : Sale) (its : List SaleItem) (cid : Nat) (c : Customer)
    (h : create_sale s r uid = .ok (st, sale, its))
    (hcid : r.customer_id = some cid)
    (hc : customerAt s cid = some c) :
    (0 < ⌊sale.total_amount * s.loyalty_rate_setting.getD 1⌋ →
      customerAt st cid = some { c with
        loyalty_points := c.loyalty_points +
          ⌊sale.total_amount * s.loyalty_rate_setting.getD 1⌋,
        total_purchases := c.total_purchases + sale.total_amount } ∧
      st.loyalty_transactions = s.loyalty_transactions ++
        [⟨cid, some sale.id, "EARNED",
          ⌊sale.total_amount * s.loyalty_rate_setting.getD 1⌋⟩]) ∧
    (⌊sale.total_amount * s.loyalty_rate_setting.getD 1⌋ ≤ 0 →
      customerAt st cid = some c ∧
      st.loyalty_transactions = s.loyalty_transactions) := by
  obtain ⟨bid, items_data, pm, customer, v, subt, tt, hb, hi, hpm, hta,
    hne, hbr, hcust, hv, hout⟩ := create_sale_ok_elim s r uid (st, sale, its) h
  rw [hcid] at hcust
  simp only [findCustomer, hc, Except.ok.injEq] at hcust
  subst hcust
  have hceq : c.id = cid := by
    have h1 := List.find?_some
      (show s.customers.find? (fun x => x.id == cid) = some c from hc)
    simpa using h1
  simp only [finishSale] at hout
  rw [Prod.mk.injEq] at hout
  obtain ⟨hst, hout2⟩ := hout
  rw [Prod.mk.injEq] at hout2
  obtain ⟨hsale, hits⟩ := hout2
  rw [← hsale, ← hits] at hst
  have htot : sale.total_amount = subt + tt - r.discount_amount.getD 0 := by
    rw [hsale]
  have hid : sale.id = s.sales.length + 1 := by
    rw [hsale]
  rw [← htot, ← hid] at hst
  set s2 := update_inventory_after_sale v bid uid
    { s with sales := s.sales ++ [sale], sale_items := s.sale_items ++ its }
    with hs2
  have hpres := update_inventory_after_sale_preserves v bid uid
    { s with sales := s.sales ++ [sale], sale_items := s.sale_items ++ its }
  have hlt : s2.loyalty_transactions = s.loyalty_transactions := by
    rw [hs2]
    exact hpres.2.1
  have hlrs : s2.loyalty_rate_setting.getD 1 =
      s.loyalty_rate_setting.getD 1 := by
    rw [hs2, hpres.2.2.1]
  have hc2 : customerAt s2 c.id = some c := by
    rw [hs2]
    unfold customerAt
    rw [hpres.1]
    show s.customers.find? (fun x => x.id == c.id) = some c
    rw [hceq]
    exact hc
  subst hst
  rw [← hceq]
  have L := apply_loyalty_spec c sale.total_amount sale.id s2
    (s.loyalty_rate_setting.getD 1) hlrs hc2
  rw [hlt] at L
  exact L

theorem loyalty_points_spec_witness :
    create_sale wBase wSaleReq 1 = .ok (wSaleSt, wSale, [wSaleItem]) ∧
    ((0 < ⌊wSale.total_amount * wBase.loyalty_rate_setting.getD 1⌋ →
      customerAt wSaleSt 7 = some { (⟨7, 5, 0⟩ : Customer) with
        loyalty_points := (5 : ℤ) +
          ⌊wSale.total_amount * wBase.loyalty_rate_setting.getD 1⌋,
        total_purchases := (0 : ℚ) + wSale.total_amount } ∧
      wSaleSt.loyalty_transactions = wBase.loyalty_transactions ++
        [⟨7, some wSale.id, "EARNED",
          ⌊wSale.total_amount * wBase.loyalty_rate_setting.getD 1⌋⟩]) ∧
    (⌊wSale.total_amount * wBase.loyalty_rate_setting.getD 1⌋ ≤ 0 →
      customerAt wSaleSt 7 = some ⟨7, 5, 0⟩ ∧
      wSaleSt.loyalty_transactions = wBase.loyalty_transactions)) :=
  ⟨by with_unfolding_all decide,
   loyalty_points_spec wBase wSaleReq 1 wSaleSt wSale [wSaleItem] 7 ⟨7, 5, 0⟩
     (by with_unfolding_all decide) rfl (by with_unfolding_all decide)⟩

/-! ## C1: insufficient stock aborts the sale -/

theorem validateItems_short (s : Store) (bid : Nat) (l : List SaleItemRequest)
    (x : SaleItemRequest) (hx : x ∈ l) (hshort : short_line s bid x) :
    ∀ out, validateItems s bid l ≠ .ok out := by
  induction l with
  | nil => cases hx
  | cons y rest ih =>
    intro out hok
    rcases List.mem_cons.mp hx with rfl | hmem
    · simp only [validateItems] at hok
      split at hok
      · exact Except.noConfusion hok
      next hcond =>
      split at hok
      · exact Except.noConfusion hok
      next product hfind =>
      split at hok
      · exact Except.noConfusion hok
      next hactive =>
      split at hok
      · exact Except.noConfusion hok
      next inventory hinv =>
      split at hok
      · exact Except.noConfusion hok
      next hstock =>
      rcases hshort with hnone | ⟨inv2, hinv2, hlt⟩
      · rw [hinv] at hnone
        exact Option.noConfusion hnone
      · rw [hinv] at hinv2
        injection hinv2 with h2
        subst h2
        exact hstock hlt
    · simp only [validateItems] at hok
      split at hok
      · exact Except.noConfusion hok
      split at hok
      · exact Except.noConfusion hok
      split at hok
      · exact Except.noConfusion hok
      split at hok
      · exact Except.noConfusion hok
      split at hok
      · exact Except.noConfusion hok
      split at hok
      · exact Except.noConfusion hok
      next v2 a2 b2 hrec =>
      exact ih hmem (v2, a2, b2) hrec

theorem validateItems_append_error (s : Store) (bid : Nat)
    (l1 l2 : List SaleItemRequest) (v : List ValidatedItem) (a b : ℚ)
    (e : SaleError) (h1 : validateItems s bid l1 = .ok (v, a, b))
    (h2 : validateItems s bid l2 = .error e) :
    validateItems s bid (l1 ++ l2) = .error e := by
  induction l1 generalizing v a b with
  | nil =>
    rw [List.nil_append]
    exact h2
  | cons y rest ih =>
    simp only [validateItems] at h1
    split at h1
    · exact Except.noConfusion h1
    next hcond =>
    split at h1
    · exact Except.noConfusion h1
    next product hfind =>
    split at h1
    · exact Except.noConfusion h1
    next hactive =>
    split at h1
    · exact Except.noConfusion h1
    next inventory hinv =>
    split at h1
    · exact Except.noConfusion h1
    next hstock =>
    split at h1
    · exact Except.noConfusion h1
    next v2 a2 b2 hrec =>
    rw [List.cons_append]
    simp only [validateItems]
    rw [if_neg hcond]
    simp only [hfind]
    rw [if_neg hactive]
    simp only [hinv]
    rw [if_neg hstock]
    rw [ih v2 a2 b2 hrec]

theorem validateItems_short_head (s : Store) (bid : Nat)
    (x : SaleItemRequest) (l2 : List SaleItemRequest) (p : Product)
    (hpid : x.product_id.getD 0 ≠ 0) (hqty : 0 < x.quantity.getD 0)
    (hfind : s.products.find? (fun pp => pp.id == x.product_id.getD 0) =
      some p)
    (hactive : p.is_active = true) (hshort : short_line s bid x) :
    validateItems s bid (x :: l2) = .error .insufficientStock := by
  simp only [validateItems]
  rw [if_neg (by
    simp only [Bool.or_eq_true, beq_iff_eq, decide_eq_true_eq]
    push_neg
    exact ⟨hpid, by omega⟩)]
  simp only [hfind]
  rw [if_neg (by simp [hactive])]
  rcases hshort with hnone | ⟨inv, hinv, hlt⟩
  · simp only [hnone]
  · simp only [hinv]
    rw [if_pos hlt]

/-- C1 (amended): a sale request whose items contain a line with no inventory
row at the given branch or with available stock below the requested quantity
always fails — nothing is persisted, since an error response precedes every
write — and the error is the InsufficientStock error precisely when every
validation step before that line's stock check passes (required fields
present, branch and customer resolved, and all earlier lines valid). -/
theorem insufficient_stock_aborts_sale (s : Store) (r : SaleRequest)
    (uid : Nat) (bid : Nat) (l : List SaleItemRequest) (x : SaleItemRequest)
    (hb : r.branch_id = some bid) (hil : r.items = some l) (hx : x ∈ l)
    (hshort : short_line s bid x) :
    (∃ e, create_sale s r uid = .error e) ∧
    (∀ l1 l2 pm customer p v a b,
      l = l1 ++ x :: l2 →
      r.payment_method = some pm → r.total_amount.isSome = true →
      (s.branches.find? (fun bb => bb.id == bid)).isSome = true →
      findCustomer s r.customer_id = .ok customer →
      validateItems s bid l1 = .ok (v, a, b) →
      x.product_id.getD 0 ≠ 0 → 0 < x.quantity.getD 0 →
      s.products.find? (fun pp => pp.id == x.product_id.getD 0) = some p →
      p.is_active = true →
      create_sale s r uid = .error .insufficientStock) := by
  constructor
  · cases hres : create_sale s r uid with
    | error e => exact ⟨e, rfl⟩
    | ok out =>
      exfalso
      obtain ⟨bid2, items2, pm, customer, v, subt, tt, hb2, hi2, hpm2, hta2,
        hne2, hbr2, hc2, hv2, hout2⟩ := create_sale_ok_elim s r uid out hres
      rw [hb] at hb2
      injection hb2 with hbeq
      rw [hil] at hi2
      injection hi2 with hieq
      subst hbeq hieq
      exact validateItems_short s bid l x hx hshort _ hv2
  · intro l1 l2 pm customer p v a b hsplit hpm hta hbr hcust hv1 hpid hqty
      hfindp hact
    have hval : validateItems s bid l = .error .insufficientStock := by
      rw [hsplit]
      exact validateItems_append_error s bid l1 (x :: l2) v a b _ hv1
        (validateItems_short_head s bid x l2 p hpid hqty hfindp hact hshort)
    obtain ⟨br, hbr2⟩ := Option.isSome_iff_exists.mp hbr
    obtain ⟨ta, hta2⟩ := Option.isSome_iff_exists.mp hta
    have hlne : l.isEmpty = false := by
      rw [hsplit]
      cases l1 <;> rfl
    simp [create_sale, hb, hil, hpm, hta2, hlne, hbr2, hcust, hval]

theorem insufficient_stock_aborts_sale_witness :
    short_line wBase 1 ⟨some 2, some 5, none, none⟩ ∧
    (∃ e, create_sale wBase wShortReq 1 = .error e) ∧
    create_sale wBase wShortReq 1 = .error .insufficientStock :=
  ⟨Or.inr ⟨⟨2, 1, 2, 0⟩, by decide, by decide⟩,
   (insufficient_stock_aborts_sale wBase wShortReq 1 1
      [⟨some 2, some 5, none, none⟩] ⟨some 2, some 5, none, none⟩
      rfl rfl (List.mem_singleton.mpr rfl)
      (Or.inr ⟨⟨2, 1, 2, 0⟩, by decide, by decide⟩)).1,
   (insufficient_stock_aborts_sale wBase wShortReq 1 1
      [⟨some 2, some 5, none, none⟩] ⟨some 2, some 5, none, none⟩
      rfl rfl (List.mem_singleton.mpr rfl)
      (Or.inr ⟨⟨2, 1, 2, 0⟩, by decide, by decide⟩)).2
      [] [] "Cash" none ⟨2, 5, 0, true⟩ [] 0 0 rfl rfl rfl (by decide) rfl
      rfl (by decide) (by decide) (by with_unfolding_all decide) rfl⟩

/-- C1 counterexample: wMixedReq contains the under-stocked line for product
2 (5 requested, 2 available at branch 1), yet create_sale fails with the
ProductNotFound error for the earlier invalid line, not with
InsufficientStock — the claim's universally quantified error kind is wrong,
though the request still fails and persists nothing. -/
theorem insufficient_stock_error_kind_cex :
    short_line wBase 1 ⟨some 2, some 5, none, none⟩ ∧
    (⟨some 2, some 5, none, none⟩ : SaleItemRequest) ∈
      (wMixedReq.items.getD []) ∧
    create_sale wBase wMixedReq 1 = .error (.productNotFound 99) ∧
    create_sale wBase wMixedReq 1 ≠ .error .insufficientStock :=
  ⟨Or.inr ⟨⟨2, 1, 2, 0⟩, by decide, by decide⟩,
   by decide,
   by with_unfolding_all decide,
   by with_unfolding_all decide⟩

/-! ## C3: refunds restore inventory and reverse loyalty -/

theorem find?_updateFirst_isSome {α : Type} (p q : α → Bool) (f : α → α)
    (l : List α) (hq : ∀ a, q (f a) = q a) :
    ((updateFirst p f l).find? q).isSome = (l.find? q).isSome := by
  induction l with
  | nil => rfl
  | cons x xs ih =>
    by_cases hx : p x = true
    · rw [updateFirst, if_pos hx]
      cases hqx : q x with
      | true =>
        rw [List.find?_cons_of_pos _ ((hq x).trans hqx),
          List.find?_cons_of_pos _ hqx]
        rfl
      | false =>
        rw [List.find?_cons_of_neg _ (by simp [(hq x).trans hqx]),
          List.find?_cons_of_neg _ (by simp [hqx])]
    · rw [updateFirst, if_neg hx]
      cases hqx : q x with
      | true =>
        rw [List.find?_cons_of_pos _ hqx, List.find?_cons_of_pos _ hqx]
      | false =>
        rw [List.find?_cons_of_neg _ (by simp [hqx]),
          List.find?_cons_of_neg _ (by simp [hqx]), ih]

theorem restore_inventory_preserves (sale : Sale) (uid : Nat)
    (items : List SaleItem) (s : Store) :
    (restore_inventory sale uid items s).customers = s.customers ∧
    (restore_inventory sale uid items s).loyalty_transactions =
      s.loyalty_transactions ∧
    (restore_inventory sale uid items s).sales = s.sales ∧
    (restore_inventory sale uid items s).sale_items = s.sale_items := by
  induction items generalizing s with
  | nil => exact ⟨rfl, rfl, rfl, rfl⟩
  | cons x rest ih =>
    simp only [restore_inventory]
    cases hf : s.inventories.find? (invKey x.product_id sale.branch_id) with
    | none => exact ih s
    | some a => exact ih _

theorem refund_loyalty_preserves (sale : Sale) (t : Store) :
    (refund_loyalty sale t).inventories = t.inventories ∧
    (refund_loyalty sale t).movements = t.movements ∧
    (refund_loyalty sale t).sales = t.sales := by
  unfold refund_loyalty
  split
  · exact ⟨rfl, rfl, rfl⟩
  · split
    · exact ⟨rfl, rfl, rfl⟩
    · split
      · exact ⟨rfl, rfl, rfl⟩
      · exact ⟨rfl, rfl, rfl⟩

theorem restore_inventory_spec (sale : Sale) (uid : Nat)
    (items : List SaleItem) (s : Store)
    (hrows : ∀ it ∈ items,
      ((s.inventories.find? (invKey it.product_id sale.branch_id)).isSome =
        true))
    (hdist : items.Pairwise (fun a b => a.product_id ≠ b.product_id)) :
    (restore_inventory sale uid items s).movements =
      s.movements ++ items.map (refundMovementOf sale uid) ∧
    (∀ it ∈ items,
      stockAt (restore_inventory sale uid items s) it.product_id
          sale.branch_id =
        stockAt s it.product_id sale.branch_id + it.quantity) ∧
    (∀ pid bid2,
      (∀ it ∈ items, ¬(it.product_id = pid ∧ sale.branch_id = bid2)) →
      (restore_inventory sale uid items s).inventories.find?
          (invKey pid bid2) =
        s.inventories.find? (invKey pid bid2)) := by
  induction items generalizing s with
  | nil =>
    refine ⟨by simp [restore_inventory], ?_, fun pid bid2 _ => rfl⟩
    intro it hit
    cases hit
  | cons x rest ih =>
    obtain ⟨a, ha⟩ :=
      Option.isSome_iff_exists.mp (hrows x (List.mem_cons_self x rest))
    obtain ⟨hhead, hdist2⟩ := List.pairwise_cons.mp hdist
    simp only [restore_inventory, ha]
    set s1 : Store := { s with
      inventories := updateFirst (invKey x.product_id sale.branch_id)
          (fun inv => { inv with
            current_stock := inv.current_stock + x.quantity })
          s.inventories
      movements := s.movements ++ [refundMovementOf sale uid x] } with hs1
    have hrows1 : ∀ it ∈ rest,
        ((s1.inventories.find? (invKey it.product_id sale.branch_id)).isSome =
          true) := by
      intro it hit
      rw [hs1]
      show ((updateFirst (invKey x.product_id sale.branch_id)
          (fun inv => { inv with
            current_stock := inv.current_stock + x.quantity })
          s.inventories).find?
          (invKey it.product_id sale.branch_id)).isSome = true
      rw [find?_updateFirst_isSome (invKey x.product_id sale.branch_id)
        (invKey it.product_id sale.branch_id)
        (fun inv => { inv with
          current_stock := inv.current_stock + x.quantity })
        s.inventories (fun b => rfl)]
      exact hrows it (List.mem_cons_of_mem x hit)
    obtain ⟨ihm, ihs, iho⟩ := ih s1 hrows1 hdist2
    have hs1find : ∀ pid bid2, ¬(x.product_id = pid ∧ sale.branch_id = bid2) →
        s1.inventories.find? (invKey pid bid2) =
          s.inventories.find? (invKey pid bid2) := by
      intro pid bid2 hne
      rw [hs1]
      show (updateFirst (invKey x.product_id sale.branch_id)
          (fun inv => { inv with
            current_stock := inv.current_stock + x.quantity })
          s.inventories).find? (invKey pid bid2) = _
      exact find?_updateFirst_disjoint _ _ _ _ (fun b => rfl)
        (invKey_disjoint x.product_id sale.branch_id pid bid2 hne)
    refine ⟨?_, ?_, ?_⟩
    · rw [ihm, hs1]
      show (s.movements ++ [refundMovementOf sale uid x]) ++
          rest.map (refundMovementOf sale uid) = _
      rw [List.map_cons, List.append_assoc]
      rfl
    · intro it hit
      rcases List.mem_cons.mp hit with rfl | hmem
      · have hrest : ∀ it2 ∈ rest,
            ¬(it2.product_id = it.product_id ∧
              sale.branch_id = sale.branch_id) :=
          fun it2 h2 hc => (hhead it2 h2) hc.1.symm
        unfold stockAt stockOf
        rw [iho it.product_id sale.branch_id hrest]
        rw [hs1]
        show ((Option.map (fun i => i.current_stock)
            ((updateFirst (invKey it.product_id sale.branch_id)
              (fun inv => { inv with
                current_stock := inv.current_stock + it.quantity })
              s.inventories).find?
              (invKey it.product_id sale.branch_id))).getD 0) = _
        rw [find?_updateFirst_hit (invKey it.product_id sale.branch_id)
          (fun inv => { inv with
            current_stock := inv.current_stock + it.quantity })
          s.inventories (fun b hb => hb), ha]
        rfl
      · have hne : ¬(x.product_id = it.product_id ∧
            sale.branch_id = sale.branch_id) :=
          fun hc => (hhead it hmem) hc.1
        rw [ihs it hmem]
        unfold stockAt stockOf
        rw [hs1find it.product_id sale.branch_id hne]
    · intro pid bid2 hnone
      rw [iho pid bid2 (fun it h2 => hnone it (List.mem_cons_of_mem x h2))]
      exact hs1find pid bid2 (hnone x (List.mem_cons_self x rest))

/-- C3: refunding a Completed sale marks it Refunded, restores each line's
stock at the sale's branch by exactly the sold quantity appending one IN
movement per line, and, when the customer and an EARNED loyalty transaction
for the sale exist, deducts exactly its points and the sale total from the
customer, appending an ADJUSTED transaction; refunding an already Refunded
sale is rejected, and an error result carries no state change. -/
theorem refund_sale_spec (s : Store) (sid uid : Nat) (reason : String)
    (sale : Sale)
    (hfind : s.sales.find? (fun x => x.id == sid) = some sale) :
    (sale.payment_status = "Refunded" →
      refund_sale s sid reason uid = .error .alreadyRefunded) ∧
    (sale.payment_status = "Completed" →
      (∀ it ∈ saleItemsOf s sid,
        ((s.inventories.find? (invKey it.product_id sale.branch_id)).isSome =
          true)) →
      (saleItemsOf s sid).Pairwise (fun a b => a.product_id ≠ b.product_id) →
      ∃ st sale1, refund_sale s sid reason uid = .ok (st, sale1) ∧
        sale1.payment_status = "Refunded" ∧
        ((st.sales.find? (fun x => x.id == sid)).map (·.payment_status)) =
          some "Refunded" ∧
        (∀ it ∈ saleItemsOf s sid,
          stockAt st it.product_id sale.branch_id =
            stockAt s it.product_id sale.branch_id + it.quantity) ∧
        st.movements = s.movements ++
          (saleItemsOf s sid).map (refundMovementOf sale1 uid) ∧
        (∀ cid c lt, sale.customer_id = some cid →
          customerAt s cid = some c →
          s.loyalty_transactions.find? (fun t =>
            t.customer_id == cid && t.sale_id == some sid &&
            t.transaction_type == "EARNED") = some lt →
          customerAt st cid = some { c with
            loyalty_points := c.loyalty_points - lt.points,
            total_purchases := c.total_purchases - sale.total_amount } ∧
          st.loyalty_transactions = s.loyalty_transactions ++
            [⟨cid, some sid, "ADJUSTED", -lt.points⟩])) := by
  have hsid : sale.id = sid := by
    have h1 := List.find?_some hfind
    simpa using h1
  constructor
  · intro href
    simp [refund_sale, hfind, href]
  · intro hcomp hrows hdist
    set sale1 : Sale := { sale with
      payment_status := "Refunded",
      notes := sale.notes ++ " | REFUNDED: " ++ reason } with hsale1
    set s0 : Store := { s with
      sales := updateFirst (fun x => x.id == sid) (fun _ => sale1) s.sales }
      with hs0
    set st1 := restore_inventory sale1 uid (saleItemsOf s0 sid) s0 with hst1
    have hbr1 : sale1.branch_id = sale.branch_id := by rw [hsale1]
    have hitems0 : saleItemsOf s0 sid = saleItemsOf s sid := rfl
    obtain ⟨hrm, hrs, hro⟩ :=
      restore_inventory_spec sale1 uid (saleItemsOf s0 sid) s0
        (by
          intro it hit
          rw [hitems0] at hit
          rw [hbr1]
          exact hrows it hit)
        (by rw [hitems0]; exact hdist)
    obtain ⟨hp1, hp2, hp3, hp4⟩ :=
      restore_inventory_preserves sale1 uid (saleItemsOf s0 sid) s0
    obtain ⟨hq1, hq2, hq3⟩ := refund_loyalty_preserves sale1 st1
    refine ⟨refund_loyalty sale1 st1, sale1, ?_, ?_, ?_, ?_, ?_, ?_⟩
    · simp only [refund_sale, hfind]
      rw [if_neg (by simp [hcomp])]
    · rw [hsale1]
    · rw [hq3]
      rw [show st1.sales = s0.sales from hp3]
      show ((updateFirst (fun x => x.id == sid) (fun _ => sale1)
          s.sales).find? (fun x => x.id == sid)).map (·.payment_status) =
        some "Refunded"
      have hkey : ∀ b : Sale, (b.id == sid) = true →
          ((sale1.id == sid) = true) := by
        intro b _
        have h1 : sale1.id = sale.id := by rw [hsale1]
        rw [h1, hsid]
        simp
      rw [find?_updateFirst_hit (fun x => x.id == sid) (fun _ => sale1)
        s.sales hkey, hfind]
      rfl
    · intro it hit
      have hstock := hrs it hit
      rw [hbr1] at hstock
      unfold stockAt
      rw [show (refund_loyalty sale1 st1).inventories = st1.inventories
        from hq1]
      exact hstock
    · rw [hq2]
      rw [show st1.movements = s0.movements ++
        (saleItemsOf s0 sid).map (refundMovementOf sale1 uid) from hrm]
      rfl
    · intro cid c lt hcid hc hlt
      have hcust1 : customerAt st1 cid = some c := by
        rw [hst1]
        unfold customerAt
        rw [hp1]
        exact hc
      have hlt1 : st1.loyalty_transactions = s.loyalty_transactions := by
        rw [hst1, hp2]
      simp only [refund_loyalty, hcid, hcust1, hsid, hlt1, hlt]
      constructor
      · unfold customerAt
        show (updateFirst (fun x => x.id == cid)
          (fun x => { x with
            loyalty_points := x.loyalty_points - lt.points,
            total_purchases := x.total_purchases - sale.total_amount })
          st1.customers).find? (fun x => x.id == cid) = _
        rw [find?_updateFirst_hit (fun x => x.id == cid)
          (fun x => { x with
            loyalty_points := x.loyalty_points - lt.points,
            total_purchases := x.total_purchases - sale.total_amount })
          st1.customers (fun b hb => hb)]
        rw [show st1.customers.find? (fun x => x.id == cid) = some c
          from hcust1]
        rfl
      · trivial

theorem refund_sale_spec_witness :
    refund_sale wRefund 2 "dup" 9 = .error .alreadyRefunded ∧
    (∃ st sale1, refund_sale wRefund 1 "damaged" 9 = .ok (st, sale1) ∧
      sale1.payment_status = "Refunded" ∧
      ((st.sales.find? (fun x => x.id == 1)).map (·.payment_status)) =
        some "Refunded" ∧
      (∀ it ∈ saleItemsOf wRefund 1,
        stockAt st it.product_id 1 =
          stockAt wRefund it.product_id 1 + it.quantity) ∧
      st.movements = wRefund.movements ++
        (saleItemsOf wRefund 1).map (refundMovementOf sale1 9) ∧
      (∀ cid c lt, (some 7 : Option Nat) = some cid →
        customerAt wRefund cid = some c →
        wRefund.loyalty_transactions.find? (fun t =>
          t.customer_id == cid && t.sale_id == some 1 &&
          t.transaction_type == "EARNED") = some lt →
        customerAt st cid = some { c with
          loyalty_points := c.loyalty_points - lt.points,
          total_purchases := c.total_purchases - 217/10 } ∧
        st.loyalty_transactions = wRefund.loyalty_transactions ++
          [⟨cid, some 1, "ADJUSTED", -lt.points⟩])) :=
  ⟨(refund_sale_spec wRefund 2 9 "dup"
      ⟨2, "SALE-2", none, 1, 1, 10, 0, 0, 10, "Cash", "Refunded", ""⟩
      (by with_unfolding_all decide)).1 rfl,
   (refund_sale_spec wRefund 1 9 "damaged"
      ⟨1, "SALE-1", some 7, 1, 1, 20, 17/10, 0, 217/10, "Cash",
       "Completed", ""⟩
      (by with_unfolding_all decide)).2 rfl (by decide) (by decide)⟩

theorem receiveMovementOf_congr (s s3 : Store) (po : PurchaseOrder)
    (uid : Nat) (r : ReceiveItemRequest)
    (h : poItemAt s3 (r.item_id.getD 0) = poItemAt s (r.item_id.getD 0)) :
    receiveMovementOf s3 po uid r = receiveMovementOf s po uid r := by
  unfold receiveMovementOf
  rw [show poItemAt s3 (r.item_id.getD 0) =
    poItemAt s (r.item_id.getD 0) from h]

theorem process_received_items_cons_aux (po : PurchaseOrder) (uid : Nat)
    (r : ReceiveItemRequest) (rest : List ReceiveItemRequest)
    (s s3 : Store) (item : PurchaseOrderItem)
    (hrec : ∀ t : Store, ReceiveEntriesOK po rest t →
      ReceiveProcessed po uid rest t)
    (hok : ReceiveEntriesOK po (r :: rest) s)
    (hitem : poItemAt s (r.item_id.getD 0) = some item)
    (hs3po : s3.purchase_orders = s.purchase_orders)
    (hs3items : s3.purchase_order_items = updateFirst
      (fun it => it.id == r.item_id.getD 0)
      (fun it => { it with received_quantity :=
        it.received_quantity + r.received_quantity.getD 0 })
      s.purchase_order_items)
    (hs3mov : s3.movements = s.movements ++ [receiveMovementOf s po uid r])
    (hs3at : stockAt s3 item.product_id po.branch_id =
      stockAt s item.product_id po.branch_id + r.received_quantity.getD 0)
    (hs3other : ∀ pid bid, ¬(item.product_id = pid ∧ po.branch_id = bid) →
      s3.inventories.find? (invKey pid bid) =
        s.inventories.find? (invKey pid bid)) :
    ∃ st, process_received_items po uid rest s3 = .ok st ∧
      st.purchase_orders = s.purchase_orders ∧
      st.movements = s.movements ++
        (r :: rest).map (receiveMovementOf s po uid) ∧
      (∀ x ∈ r :: rest, ∀ it2, poItemAt s (x.item_id.getD 0) = some it2 →
        poItemAt st (x.item_id.getD 0) = some { it2 with
          received_quantity :=
            it2.received_quantity + x.received_quantity.getD 0 } ∧
        stockAt st it2.product_id po.branch_id =
          stockAt s it2.product_id po.branch_id +
            x.received_quantity.getD 0) ∧
      (∀ iid, (∀ x ∈ r :: rest, iid ≠ x.item_id.getD 0) →
        poItemAt st iid = poItemAt s iid) ∧
      (∀ pid bid,
        (∀ x ∈ r :: rest, ∀ it2, poItemAt s (x.item_id.getD 0) = some it2 →
          ¬(it2.product_id = pid ∧ po.branch_id = bid)) →
        st.inventories.find? (invKey pid bid) =
          s.inventories.find? (invKey pid bid)) := by
  have hok' := hok
  unfold ReceiveEntriesOK at hok'
  obtain ⟨hval, hids, hprods⟩ := hok'
  obtain ⟨hids_head, hids_tail⟩ := List.pairwise_cons.mp hids
  obtain ⟨hprods_head, hprods_tail⟩ := List.pairwise_cons.mp hprods
  have hitems3 : ∀ iid2, iid2 ≠ r.item_id.getD 0 →
      poItemAt s3 iid2 = poItemAt s iid2 := by
    intro iid2 hne2
    unfold poItemAt
    rw [hs3items]
    exact find?_updateFirst_disjoint
      (fun it => it.id == r.item_id.getD 0)
      (fun it => it.id == iid2)
      (fun it => { it with received_quantity :=
        it.received_quantity + r.received_quantity.getD 0 })
      s.purchase_order_items (fun b => rfl)
      (fun b hb => by
        simp only [beq_iff_eq] at hb
        simp only [beq_eq_false_iff_ne, ne_eq, hb]
        exact fun h => hne2 h.symm)
  have hhead3 : poItemAt s3 (r.item_id.getD 0) = some { item with
      received_quantity :=
        item.received_quantity + r.received_quantity.getD 0 } := by
    unfold poItemAt
    rw [hs3items]
    rw [find?_updateFirst_hit (fun it => it.id == r.item_id.getD 0)
      (fun it => { it with received_quantity :=
        it.received_quantity + r.received_quantity.getD 0 })
      s.purchase_order_items (fun b hb => hb)]
    rw [show s.purchase_order_items.find?
        (fun it => it.id == r.item_id.getD 0) = some item from hitem]
    rfl
  have harg : ReceiveEntriesOK po rest s3 := by
    unfold ReceiveEntriesOK
    refine ⟨?_, hids_tail, ?_⟩
    · intro x hx
      obtain ⟨hq', it2, hit2, hpoid'⟩ := hval x (List.mem_cons_of_mem r hx)
      exact ⟨hq', it2,
        (hitems3 _ (Ne.symm (hids_head x hx))).trans hit2, hpoid'⟩
    · refine List.Pairwise.imp_of_mem ?_ hprods_tail
      intro a b ha hb hab
      rw [hitems3 _ (Ne.symm (hids_head a ha)),
        hitems3 _ (Ne.symm (hids_head b hb))]
      exact hab
  have hres := hrec s3 harg
  unfold ReceiveProcessed at hres
  obtain ⟨st, hok2, hpos, hmov, hitems_ih, hpo_un, hinv_un⟩ := hres
  refine ⟨st, hok2, hpos.trans hs3po, ?_, ?_, ?_, ?_⟩
  · have hmapeq : rest.map (receiveMovementOf s3 po uid) =
        rest.map (receiveMovementOf s po uid) := by
      refine List.map_congr_left ?_
      intro x hx
      exact receiveMovementOf_congr s s3 po uid x
        (hitems3 _ (Ne.symm (hids_head x hx)))
    rw [hmov, hmapeq, hs3mov, List.append_assoc]
    rfl
  · intro x hx it2 hit2
    rcases List.mem_cons.mp hx with rfl | hmem
    · have heq : item = it2 := Option.some.inj (hitem.symm.trans hit2)
      subst heq
      constructor
      · rw [hpo_un (x.item_id.getD 0) (fun x2 hx2 => hids_head x2 hx2),
          hhead3]
      · have hdisj2 : ∀ x2 ∈ rest, ∀ it3,
            poItemAt s3 (x2.item_id.getD 0) = some it3 →
            ¬(it3.product_id = item.product_id ∧
              po.branch_id = po.branch_id) := by
          intro x2 hx2 it3 hit3 hc
          have h1 := hprods_head x2 hx2
          have hit3s : poItemAt s (x2.item_id.getD 0) = some it3 :=
            (hitems3 _ (Ne.symm (hids_head x2 hx2))).symm.trans hit3
          rw [hitem, hit3s] at h1
          simp only [Option.map_some'] at h1
          exact h1 (by rw [hc.1])
        have h2 := hinv_un item.product_id po.branch_id hdisj2
        have h3 : stockAt st item.product_id po.branch_id =
            stockAt s3 item.product_id po.branch_id := by
          unfold stockAt stockOf
          rw [h2]
        rw [h3, hs3at]
    · obtain ⟨hpo_eq, hstock_eq⟩ := hitems_ih x hmem it2
        ((hitems3 _ (Ne.symm (hids_head x hmem))).trans hit2)
      have hne2 : ¬(it2.product_id = item.product_id ∧
          po.branch_id = po.branch_id) := by
        intro hc
        have h1 := hprods_head x hmem
        rw [hitem, hit2] at h1
        simp only [Option.map_some'] at h1
        exact h1 (by rw [hc.1])
      have h4 : stockAt s3 it2.product_id po.branch_id =
          stockAt s it2.product_id po.branch_id := by
        unfold stockAt stockOf
        rw [hs3other it2.product_id po.branch_id
          (fun hc => hne2 ⟨hc.1.symm, hc.2⟩)]
      exact ⟨hpo_eq, by rw [hstock_eq, h4]⟩
  · intro iid hiid
    rw [hpo_un iid (fun x hx => hiid x (List.mem_cons_of_mem r hx)),
      hitems3 iid (hiid r (List.mem_cons_self r rest))]
  · intro pid bid hdis
    have hdis3 : ∀ x ∈ rest, ∀ it2,
        poItemAt s3 (x.item_id.getD 0) = some it2 →
        ¬(it2.product_id = pid ∧ po.branch_id = bid) := by
      intro x hx it2 hit2
      exact hdis x (List.mem_cons_of_mem r hx) it2
        ((hitems3 _ (Ne.symm (hids_head x hx))).symm.trans hit2)
    rw [hinv_un pid bid hdis3,
      hs3other pid bid (hdis r (List.mem_cons_self r rest) item hitem)]

theorem process_received_items_spec (po : PurchaseOrder) (uid : Nat)
    (entries : List ReceiveItemRequest) : ∀ s : Store,
    ReceiveEntriesOK po entries s → ReceiveProcessed po uid entries s := by
  induction entries with
  | nil =>
    intro s _
    unfold ReceiveProcessed
    refine ⟨s, rfl, rfl, by simp, ?_, fun iid _ => rfl, fun pid bid _ => rfl⟩
    intro x hx
    exact absurd hx (List.not_mem_nil x)
  | cons r rest ih =>
    intro s hok
    have hok' := hok
    unfold ReceiveEntriesOK at hok'
    obtain ⟨hval, hids, hprods⟩ := hok'
    obtain ⟨hq, item, hitem, hpoid⟩ := hval r (List.mem_cons_self r rest)
    unfold ReceiveProcessed
    cases hf : s.inventories.find? (invKey item.product_id po.branch_id) with
    | some a =>
      have hstep : process_received_items po uid (r :: rest) s =
          process_received_items po uid rest { s with
            purchase_order_items := updateFirst
              (fun it => it.id == r.item_id.getD 0)
              (fun it => { it with received_quantity :=
                it.received_quantity + r.received_quantity.getD 0 })
              s.purchase_order_items
            inventories := updateFirst (invKey item.product_id po.branch_id)
              (fun inv => { inv with current_stock :=
                inv.current_stock + r.received_quantity.getD 0 })
              s.inventories
            movements := s.movements ++ [receiveMovementOf s po uid r] } := by
        simp only [process_received_items]
        rw [if_neg (not_le.mpr hq)]
        simp only [hitem]
        rw [if_neg (by simp [hpoid] :
          ¬((item.purchase_order_id != po.id) = true))]
        simp only [hf]
      have hat : stockAt ({ s with
            purchase_order_items := updateFirst
              (fun it => it.id == r.item_id.getD 0)
              (fun it => { it with received_quantity :=
                it.received_quantity + r.received_quantity.getD 0 })
              s.purchase_order_items
            inventories := updateFirst (invKey item.product_id po.branch_id)
              (fun inv => { inv with current_stock :=
                inv.current_stock + r.received_quantity.getD 0 })
              s.inventories
            movements := s.movements ++ [receiveMovementOf s po uid r] } :
            Store) item.product_id po.branch_id =
          stockAt s item.product_id po.branch_id +
            r.received_quantity.getD 0 := by
        show ((((updateFirst (invKey item.product_id po.branch_id)
            (fun inv => { inv with current_stock :=
              inv.current_stock + r.received_quantity.getD 0 })
            s.inventories).find?
            (invKey item.product_id po.branch_id)).map
            (fun inv => inv.current_stock)).getD 0) = _
        rw [find?_updateFirst_hit (invKey item.product_id po.branch_id)
          (fun inv => { inv with current_stock :=
            inv.current_stock + r.received_quantity.getD 0 })
          s.inventories (fun b hb => hb), hf]
        show a.current_stock + r.received_quantity.getD 0 = _
        unfold stockAt stockOf
        rw [hf]
        rfl
      have hother : ∀ pid bid,
          ¬(item.product_id = pid ∧ po.branch_id = bid) →
          ({ s with
            purchase_order_items := updateFirst
              (fun it => it.id == r.item_id.getD 0)
              (fun it => { it with received_quantity :=
                it.received_quantity + r.received_quantity.getD 0 })
              s.purchase_order_items
            inventories := updateFirst (invKey item.product_id po.branch_id)
              (fun inv => { inv with current_stock :=
                inv.current_stock + r.received_quantity.getD 0 })
              s.inventories
            movements := s.movements ++ [receiveMovementOf s po uid r] } :
            Store).inventories.find? (invKey pid bid) =
            s.inventories.find? (invKey pid bid) := by
        intro pid bid hne
        show (updateFirst (invKey item.product_id po.branch_id)
            (fun inv => { inv with current_stock :=
              inv.current_stock + r.received_quantity.getD 0 })
            s.inventories).find? (invKey pid bid) = _
        exact find?_updateFirst_disjoint _ _ _ _ (fun b => rfl)
          (invKey_disjoint item.product_id po.branch_id pid bid hne)
      rw [hstep]
      exact process_received_items_cons_aux po uid r rest s _ item ih hok
        hitem rfl rfl rfl hat hother
    | none =>
      have hstep : process_received_items po uid (r :: rest) s =
          process_received_items po uid rest { s with
            purchase_order_items := updateFirst
              (fun it => it.id == r.item_id.getD 0)
              (fun it => { it with received_quantity :=
                it.received_quantity + r.received_quantity.getD 0 })
              s.purchase_order_items
            inventories := updateFirst (invKey item.product_id po.branch_id)
              (fun inv => { inv with current_stock :=
                inv.current_stock + r.received_quantity.getD 0 })
              (s.inventories ++
                [(⟨item.product_id, po.branch_id, 0, 0⟩ : Inventory)])
            movements := s.movements ++ [receiveMovementOf s po uid r] } := by
        simp only [process_received_items]
        rw [if_neg (not_le.mpr hq)]
        simp only [hitem]
        rw [if_neg (by simp [hpoid] :
          ¬((item.purchase_order_id != po.id) = true))]
        simp only [hf]
      have hat : stockAt ({ s with
            purchase_order_items := updateFirst
              (fun it => it.id == r.item_id.getD 0)
              (fun it => { it with received_quantity :=
                it.received_quantity + r.received_quantity.getD 0 })
              s.purchase_order_items
            inventories := updateFirst (invKey item.product_id po.branch_id)
              (fun inv => { inv with current_stock :=
                inv.current_stock + r.received_quantity.getD 0 })
              (s.inventories ++
                [(⟨item.product_id, po.branch_id, 0, 0⟩ : Inventory)])
            movements := s.movements ++ [receiveMovementOf s po uid r] } :
            Store) item.product_id po.branch_id =
          stockAt s item.product_id po.branch_id +
            r.received_quantity.getD 0 := by
        show ((((updateFirst (invKey item.product_id po.branch_id)
            (fun inv => { inv with current_stock :=
              inv.current_stock + r.received_quantity.getD 0 })
            (s.inventories ++
              [(⟨item.product_id, po.branch_id, 0, 0⟩ : Inventory)])).find?
            (invKey item.product_id po.branch_id)).map
            (fun inv => inv.current_stock)).getD 0) = _
        rw [find?_updateFirst_hit (invKey item.product_id po.branch_id)
          (fun inv => { inv with current_stock :=
            inv.current_stock + r.received_quantity.getD 0 })
          (s.inventories ++
            [(⟨item.product_id, po.branch_id, 0, 0⟩ : Inventory)])
          (fun b hb => hb),
          find?_append_created s.inventories item.product_id po.branch_id hf]
        show (0 : ℤ) + r.received_quantity.getD 0 = _
        unfold stockAt stockOf
        rw [hf]
        rfl
      have hother : ∀ pid bid,
          ¬(item.product_id = pid ∧ po.branch_id = bid) →
          ({ s with
            purchase_order_items := updateFirst
              (fun it => it.id == r.item_id.getD 0)
              (fun it => { it with received_quantity :=
                it.received_quantity + r.received_quantity.getD 0 })
              s.purchase_order_items
            inventories := updateFirst (invKey item.product_id po.branch_id)
              (fun inv => { inv with current_stock :=
                inv.current_stock + r.received_quantity.getD 0 })
              (s.inventories ++
                [(⟨item.product_id, po.branch_id, 0, 0⟩ : Inventory)])
            movements := s.movements ++ [receiveMovementOf s po uid r] } :
            Store).inventories.find? (invKey pid bid) =
            s.inventories.find? (invKey pid bid) := by
        intro pid bid hne
        show (updateFirst (invKey item.product_id po.branch_id)
            (fun inv => { inv with current_stock :=
              inv.current_stock + r.received_quantity.getD 0 })
            (s.inventories ++
              [(⟨item.product_id, po.branch_id, 0, 0⟩ : Inventory)])).find?
            (invKey pid bid) = _
        rw [find?_updateFirst_disjoint (invKey item.product_id po.branch_id)
          (invKey pid bid)
          (fun inv => { inv with current_stock :=
            inv.current_stock + r.received_quantity.getD 0 })
          (s.inventories ++
            [(⟨item.product_id, po.branch_id, 0, 0⟩ : Inventory)])
          (fun b => rfl)
          (invKey_disjoint item.product_id po.branch_id pid bid hne)]
        exact find?_append_other s.inventories pid bid item.product_id
          po.branch_id hne
      rw [hstep]
      exact process_received_items_cons_aux po uid r rest s _ item ih hok
        hitem rfl rfl rfl hat hother

/-- C6: receiving items on an Approved purchase order (each entry naming an
existing item of the order with a positive quantity, entries pairwise
distinct in item and product) increments each named item's received_quantity
and the destination branch's current_stock by the given quantity (creating
the inventory row at 0 if absent) and appends one IN movement per entry
referencing the PO number; afterwards the order's status is Received exactly
when every item of the order has received_quantity ≥ ordered_quantity, and
stays Approved otherwise. -/
theorem receive_purchase_order_spec (s : Store) (po_id uid : Nat)
    (entries : List ReceiveItemRequest) (po : PurchaseOrder)
    (hpo : poAt s po_id = some po)
    (hst : po.status = "Approved")
    (hne : entries ≠ [])
    (hok : ReceiveEntriesOK po entries s) :
    ∃ st, receive_purchase_order s po_id entries uid = .ok st ∧
      st.movements = s.movements ++
        entries.map (receiveMovementOf s po uid) ∧
      (∀ r ∈ entries, ∀ item, poItemAt s (r.item_id.getD 0) = some item →
        poItemAt st (r.item_id.getD 0) = some { item with
          received_quantity :=
            item.received_quantity + r.received_quantity.getD 0 } ∧
        stockAt st item.product_id po.branch_id =
          stockAt s item.product_id po.branch_id +
            r.received_quantity.getD 0) ∧
      statusAt st po_id =
        some (if allItemsReceived st po_id then "Received"
          else "Approved") := by
  have h1 := process_received_items_spec po uid entries s hok
  unfold ReceiveProcessed at h1
  obtain ⟨st1, hps, hpos, hmov, hitems, hpo_un, hinv_un⟩ := h1
  have hempty : ¬(entries.isEmpty = true) := by
    cases entries with
    | nil => exact absurd rfl hne
    | cons a l => simp
  by_cases hall : allItemsReceived st1 po_id = true
  · have hstep : receive_purchase_order s po_id entries uid = .ok { st1 with
        purchase_orders := updateFirst (fun p => p.id == po_id)
          (fun p => { p with status := "Received" })
          st1.purchase_orders } := by
      simp only [receive_purchase_order, hpo]
      rw [if_neg (by simp [hst] : ¬((po.status != "Approved") = true))]
      rw [if_neg hempty]
      simp only [hps]
      rw [if_pos hall]
    refine ⟨_, hstep, hmov, ?_, ?_⟩
    · intro r hr item hitem2
      obtain ⟨hA, hB⟩ := hitems r hr item hitem2
      exact ⟨hA, hB⟩
    · have hfinal : statusAt ({ st1 with
          purchase_orders := updateFirst (fun p => p.id == po_id)
            (fun p => { p with status := "Received" })
            st1.purchase_orders } : Store) po_id = some "Received" := by
        unfold statusAt poAt
        show ((updateFirst (fun p => p.id == po_id)
            (fun p => { p with status := "Received" })
            st1.purchase_orders).find? (fun p => p.id == po_id)).map
            (fun p => p.status) = _
        rw [find?_updateFirst_hit (fun p => p.id == po_id)
          (fun p => { p with status := "Received" })
          st1.purchase_orders (fun b hb => hb), hpos,
          show s.purchase_orders.find? (fun p => p.id == po_id) =
            some po from hpo]
        rfl
      rw [hfinal]
      show some "Received" =
        some (if allItemsReceived st1 po_id then "Received" else "Approved")
      rw [hall]
      rfl
  · have hstep : receive_purchase_order s po_id entries uid = .ok st1 := by
      simp only [receive_purchase_order, hpo]
      rw [if_neg (by simp [hst] : ¬((po.status != "Approved") = true))]
      rw [if_neg hempty]
      simp only [hps]
      rw [if_neg hall]
    refine ⟨st1, hstep, hmov, ?_, ?_⟩
    · intro r hr item hitem2
      exact hitems r hr item hitem2
    · have hallf : allItemsReceived st1 po_id = false := by
        cases hallb : allItemsReceived st1 po_id with
        | true => exact absurd hallb hall
        | false => rfl
      have hstat : statusAt st1 po_id = some "Approved" := by
        unfold statusAt poAt
        rw [hpos, show s.purchase_orders.find? (fun p => p.id == po_id) =
          some po from hpo]
        simp only [Option.map_some', hst]
      rw [hstat, hallf]
      rfl

theorem receive_purchase_order_spec_witness :
    (∃ st, receive_purchase_order wPO 1 wReceiveFull 9 = .ok st ∧
      st.movements = wPO.movements ++ wReceiveFull.map
        (receiveMovementOf wPO
          ⟨1, "PO-1", 1, 1, "Approved", 120, 0, 120, "", none⟩ 9) ∧
      (∀ r ∈ wReceiveFull, ∀ item,
        poItemAt wPO (r.item_id.getD 0) = some item →
        poItemAt st (r.item_id.getD 0) = some { item with
          received_quantity :=
            item.received_quantity + r.received_quantity.getD 0 } ∧
        stockAt st item.product_id 1 =
          stockAt wPO item.product_id 1 + r.received_quantity.getD 0) ∧
      statusAt st 1 =
        some (if allItemsReceived st 1 then "Received" else "Approved")) ∧
    (∃ st, receive_purchase_order wPO 1 wReceivePartial 9 = .ok st ∧
      st.movements = wPO.movements ++ wReceivePartial.map
        (receiveMovementOf wPO
          ⟨1, "PO-1", 1, 1, "Approved", 120, 0, 120, "", none⟩ 9) ∧
      (∀ r ∈ wReceivePartial, ∀ item,
        poItemAt wPO (r.item_id.getD 0) = some item →
        poItemAt st (r.item_id.getD 0) = some { item with
          received_quantity :=
            item.received_quantity + r.received_quantity.getD 0 } ∧
        stockAt st item.product_id 1 =
          stockAt wPO item.product_id 1 + r.received_quantity.getD 0) ∧
      statusAt st 1 =
        some (if allItemsReceived st 1 then "Received" else "Approved")) :=
  ⟨receive_purchase_order_spec wPO 1 9 wReceiveFull
      ⟨1, "PO-1", 1, 1, "Approved", 120, 0, 120, "", none⟩
      (by with_unfolding_all decide) rfl (by decide) (by
        unfold ReceiveEntriesOK
        refine ⟨?_, by decide, by with_unfolding_all decide⟩
        intro r hr
        simp only [wReceiveFull, List.mem_cons, List.not_mem_nil,
          or_false] at hr
        rcases hr with rfl | rfl
        · exact ⟨by decide, ⟨1, 1, 1, 10, 0, 8⟩,
            by with_unfolding_all decide, rfl⟩
        · exact ⟨by decide, ⟨2, 1, 2, 4, 0, 10⟩,
            by with_unfolding_all decide, rfl⟩),
   receive_purchase_order_spec wPO 1 9 wReceivePartial
      ⟨1, "PO-1", 1, 1, "Approved", 120, 0, 120, "", none⟩
      (by with_unfolding_all decide) rfl (by decide) (by
        unfold ReceiveEntriesOK
        refine ⟨?_, by decide, by with_unfolding_all decide⟩
        intro r hr
        simp only [wReceivePartial, List.mem_cons, List.not_mem_nil,
          or_false] at hr
        rcases hr with rfl
        exact ⟨by decide, ⟨1, 1, 1, 10, 0, 8⟩,
          by with_unfolding_all decide, rfl⟩)⟩
